import Mathlib

/-!
Verification of the ParkEase reservation core (`app.py`, `seed.py`).

The Python application is shallowly embedded: Mongo collections become
lists of records, datetimes become integer second counts, currency floats
become exact rationals, and each Flask route that the claims touch becomes
a pure function from an `AppState` (plus its request parameters) to a new
`AppState`.  Order-sensitive Mongo operations (`find_one`,
`update_one`, `delete_one`) are modelled as first-match operations on the
backing list, and `insert_one` as appending.  Randomly generated entry and
exit tokens are not modelled; the check-in/check-out route, which uses the
token only to locate one booking, is modelled as receiving the located
booking's id directly.
-/

namespace ParkEase

/-- Slot identifiers are strings in the source; they are modelled as lists of
characters so that all string operations reduce in the kernel. -/
abbrev SlotId := List Char

/-- The booking status strings that appear in `app.py`:
"Pending Payment", "Confirmed", "Active", "Completed",
"Cancelled (No Show)", "Cancelled (User)". -/
inductive BStatus where
  | pendingPayment
  | confirmed
  | active
  | completed
  | cancelledNoShow
  | cancelledUser
  deriving DecidableEq, Repr

/-- Statuses counted as occupying a slot, the set
`["Active", "Pending Payment", "Confirmed"]` used in the collision query of
`book_spot` and in the availability resolver. -/
def isLive : BStatus → Bool
  | .pendingPayment => true
  | .confirmed => true
  | .active => true
  | _ => false

/-- A document of the `parking_areas` collection (the fields the core logic
reads). -/
structure ParkingArea where
  id : Nat
  capacity : Nat
  occupied : Int
  price : Rat
  deriving DecidableEq, Repr

/-- A document of the `slots` collection.  `book_spot` never consults this
collection; it exists in the model so that independence from it is a
meaningful statement. -/
structure Slot where
  areaId : Nat
  level : Nat
  slotNumber : SlotId
  isBike : Bool
  deriving DecidableEq, Repr

/-- A document of the `bookings` collection (the fields the core logic
reads and writes). -/
structure Booking where
  id : Nat
  userId : Nat
  areaId : Nat
  slotIds : List SlotId
  startTime : Int
  endTime : Int
  gracePeriodEnd : Int
  duration : Nat
  spots : Nat
  status : BStatus
  amount : Rat
  refundAmount : Option Rat
  reminderSent : Bool
  checkInTime : Option Int
  checkOutTime : Option Int
  penaltyApplied : Bool
  overdueHours : Nat
  deriving DecidableEq, Repr

/-- A document of the `slot_locks` collection. -/
structure SlotLock where
  areaId : Nat
  slotNumber : SlotId
  userId : Nat
  expiresAt : Int
  deriving DecidableEq, Repr

/-- The payload of a notification document, keeping the data the claims
mention (the level and area of a freed slot). -/
inductive NotifKind where
  | slotFreed (areaId : Nat) (level : Nat)
  | bookingConfirmed (areaId : Nat)
  | entryConfirmed (areaId : Nat)
  | exitConfirmed (areaId : Nat)
  | reminder (bookingId : Nat)
  deriving DecidableEq, Repr

/-- A document of the `notifications` collection. -/
structure Notification where
  userId : Nat
  kind : NotifKind
  deriving DecidableEq, Repr

/-- A document of the `slot_preferences` collection. -/
structure SlotPreference where
  userId : Nat
  areaId : Nat
  level : Nat
  deriving DecidableEq, Repr

/-- The whole database. -/
structure AppState where
  areas : List ParkingArea
  bookings : List Booking
  slots : List Slot
  locks : List SlotLock
  notifications : List Notification
  preferences : List SlotPreference
  deriving DecidableEq, Repr

/-- The authenticated actor: `current_user` fields read by the booking
path.  `vehicleSet` is `vehicle_number` being present and different from
"Not Set". -/
structure Actor where
  id : Nat
  vehicleSet : Bool
  isAdmin : Bool
  managedAreaId : Option Nat
  deriving DecidableEq, Repr

/-! ### Generic first-match list operations, mirroring Mongo's
`update_one` / `delete_one` semantics. -/

/-- Apply `f` to the first element satisfying `p`, keep the rest
(`update_one`). -/
def updateFirst (p : α → Bool) (f : α → α) : List α → List α
  | [] => []
  | x :: xs => if p x then f x :: xs else x :: updateFirst p f xs

/-- Remove the first element satisfying `p` (`delete_one`). -/
def removeFirst (p : α → Bool) : List α → List α
  | [] => []
  | x :: xs => if p x then xs else x :: removeFirst p xs

/-! ### Numeric helpers -/

/-- Python's `round(x, 2)`: round to two decimal places.  The half-way
tie-break differs between Python's float rounding and this exact-rational
model, but every invocation proved about below happens at a value whose
hundredths part is exact. -/
def round2 (q : Rat) : Rat := ((q * 100 + 1 / 2).floor : Int) / 100

/-- `math.ceil(overdue_seconds / 3600)` for a positive integral number of
seconds. -/
def ceilHours (seconds : Int) : Nat := (seconds.toNat + 3599) / 3600

/-! ### Slot-identifier string logic -/

/-- `slot_id.startswith('B-')` — the bike pricing test in `book_spot`,
`extend_booking` and `verify_booking`. -/
def startsWithB : SlotId → Bool
  | 'B' :: '-' :: _ => true
  | _ => false

/-- The segment of the identifier before the first dash:
`slot_id.split('-')[0]`. -/
def firstSegment : SlotId → List Char
  | [] => []
  | '-' :: _ => []
  | c :: rest => c :: firstSegment rest

/-- `.replace('L', '')` — removes every capital `L`. -/
def removeL (cs : List Char) : List Char := cs.filter (fun c => c ≠ 'L')

/-- `int(cs)` on the identifier grammar in use: succeeds exactly on a
non-empty all-digit string. -/
def digitsToNat? (cs : List Char) : Option Nat :=
  if cs ≠ [] ∧ cs.all Char.isDigit then
    some (cs.foldl (fun acc c => acc * 10 + (c.toNat - 48)) 0)
  else none

/-- The level extraction of `check_no_shows`:
`int(slot_id.split('-')[0].replace('L', '')) if '-' in slot_id else 1`.
`none` models the `ValueError` that `int` raises. -/
def levelOf (sid : SlotId) : Option Nat :=
  if sid.contains '-' then digitsToNat? (removeL (firstSegment sid))
  else some 1

/-! ### Pricing -/

/-- Per-slot hourly rate: bike slots (`B-` prefix) bill at half the area
base price, everything else at the base price. -/
def slotRate (basePrice : Rat) (sid : SlotId) : Rat :=
  if startsWithB sid then basePrice * (1 / 2) else basePrice

/-- The pricing loop of `book_spot`: `total_amount += slot_price * duration`
over the selected slots. -/
def bookingTotal (basePrice : Rat) (duration : Nat) (sids : List SlotId) : Rat :=
  sids.foldl (fun acc sid => acc + slotRate basePrice sid * (duration : Rat)) 0

/-- The hourly-rate loop of the check-out path of `verify_booking`:
`hourly_rate += base_price * 0.5` for `B-` slots, else `+= base_price`. -/
def hourlyRate (basePrice : Rat) (sids : List SlotId) : Rat :=
  sids.foldl (fun acc sid => acc + slotRate basePrice sid) 0

/-! ### Area occupancy updates -/

/-- `update_one` on `parking_areas` with `$inc: {occupied: delta}`. -/
def incOcc (areas : List ParkingArea) (aid : Nat) (delta : Int) : List ParkingArea :=
  updateFirst (fun a => decide (a.id = aid))
    (fun a => { a with occupied := a.occupied + delta }) areas

/-- `update_one` on `parking_areas` with `$set: {occupied: newOcc}` (the
write `book_spot` performs after reading the area). -/
def setOcc (areas : List ParkingArea) (aid : Nat) (newOcc : Int) : List ParkingArea :=
  updateFirst (fun a => decide (a.id = aid))
    (fun a => { a with occupied := newOcc }) areas

/-! ### `book_spot` (`/book`) -/

/-- The error outcomes of `book_spot`, in the order its guards appear. -/
inductive BookError where
  | invalidInput
  | profileIncomplete
  | areaNotFound
  | slotCollision
  | slotLocked (sid : SlotId)
  deriving DecidableEq, Repr

/-- The collision query of `book_spot`: same area, live status, half-open
window overlap (`start_time < end_time` of the request and conversely), and
at least one requested slot among the booking's `slot_ids`. -/
def collides (areaId : Nat) (startT endT : Int) (sids : List SlotId) (b : Booking) : Bool :=
  decide (b.areaId = areaId) && isLive b.status &&
    decide (b.startTime < endT) && decide (startT < b.endTime) &&
    b.slotIds.any (fun sid => sids.any (fun t => decide (sid = t)))

/-- Modelled from the spec (§4.2 step 3, the rule the creation claim cites):
overlap of a live booking with the requested window where, for an `Active`
booking, the effective end is `max(booking.endTime, now)`.  This is the
rule of the availability resolver; the collision query of `book_spot` is
`collides` above, which has no `now` extension — the two are compared in
the C2 theorems. -/
def specCollides (now : Int) (areaId : Nat) (startT endT : Int) (sids : List SlotId)
    (b : Booking) : Bool :=
  decide (b.areaId = areaId) && isLive b.status &&
    decide (b.startTime < endT) &&
    decide (startT < (if b.status = .active then max b.endTime now else b.endTime)) &&
    b.slotIds.any (fun sid => sids.any (fun t => decide (sid = t)))

/-- Whether a `book_spot` outcome is a success (used to state that a run
did not fail). -/
def bookOk : Except BookError (AppState × Booking) → Bool
  | .ok _ => true
  | .error _ => false

/-- `find_one` on `slot_locks` keyed by area and slot number. -/
def lockKey (areaId : Nat) (sid : SlotId) (l : SlotLock) : Bool :=
  decide (l.areaId = areaId) && decide (l.slotNumber = sid)

/-- The per-slot lock loop of `book_spot`: the first requested slot whose
stored lock (expired or not — the loop applies no expiry filter) belongs to
another user, if any. -/
def lockConflict? (locks : List SlotLock) (areaId actorId : Nat) : List SlotId → Option SlotId
  | [] => none
  | sid :: rest =>
    match locks.find? (lockKey areaId sid) with
    | some l =>
      if l.userId ≠ actorId then some sid else lockConflict? locks areaId actorId rest
    | none => lockConflict? locks areaId actorId rest

/-- The booking document `book_spot` inserts on success: dynamic pricing
(`B-` prefix bills at 50%), optional staff discount (pay 25%), rounded
total, status "Pending Payment", 15-minute grace period. -/
def mkBooking (actor : Actor) (areaId : Nat) (startTime : Int) (duration : Nat)
    (slotIds : List SlotId) (newId : Nat) (basePrice : Rat) : Booking :=
  let total0 := bookingTotal basePrice duration slotIds
  let total :=
    if actor.isAdmin || actor.managedAreaId.isSome then total0 * (1 / 4) else total0
  { id := newId
    userId := actor.id
    areaId := areaId
    slotIds := slotIds
    startTime := startTime
    endTime := startTime + 3600 * (duration : Int)
    gracePeriodEnd := startTime + 900
    duration := duration
    spots := slotIds.length
    status := .pendingPayment
    amount := round2 total
    refundAmount := none
    reminderSent := false
    checkInTime := none
    checkOutTime := none
    penaltyApplied := false
    overdueHours := 0 }

/-- The state after a successful `book_spot`: booking inserted, the area's
`occupied` `$set` to the read value plus the slot count, the caller's locks
for the area deleted. -/
def bookedState (s : AppState) (actor : Actor) (areaId : Nat) (area : ParkingArea)
    (nb : Booking) : AppState :=
  { s with
    bookings := s.bookings ++ [nb]
    areas := setOcc s.areas areaId (area.occupied + (nb.slotIds.length : Int))
    locks := s.locks.filter
      (fun l => !(decide (l.userId = actor.id) && decide (l.areaId = areaId))) }

/-- The `/book` route.  `areaId?` is the `area_id` form field (`none` when
missing); `startRaw` is the `booking_time` field: `none` when missing,
`some none` when present but unparsable, `some (some t)` when it parses to
time `t`.  `slotIds` is the comma-split, stripped, non-empty-filtered slot
list.  `newId` stands for the fresh `_id` Mongo assigns on insert. -/
def book_spot (s : AppState) (actor : Actor) (areaId? : Option Nat)
    (startRaw : Option (Option Int)) (duration : Nat) (slotIds : List SlotId)
    (newId : Nat) : Except BookError (AppState × Booking) :=
  match areaId?, startRaw with
  | none, _ => .error .invalidInput
  | some _, none => .error .invalidInput
  | some areaId, some start? =>
    if slotIds = [] then .error .invalidInput
    else if actor.vehicleSet = false then .error .profileIncomplete
    else
      match start? with
      | none => .error .invalidInput
      | some startTime =>
        match s.areas.find? (fun a => decide (a.id = areaId)) with
        | none => .error .areaNotFound
        | some area =>
          if s.bookings.any
              (collides areaId startTime (startTime + 3600 * (duration : Int)) slotIds) then
            .error .slotCollision
          else
            match lockConflict? s.locks areaId actor.id slotIds with
            | some sid => .error (.slotLocked sid)
            | none =>
              .ok (bookedState s actor areaId area
                     (mkBooking actor areaId startTime duration slotIds newId area.price),
                   mkBooking actor areaId startTime duration slotIds newId area.price)

/-! ### `pay_booking` (`/pay/<booking_id>`) -/

/-- The match filter of `pay_booking` and `cancel_booking`: booking id and
owning user — no status condition. -/
def ownedPred (actorId bookingId : Nat) (b : Booking) : Bool :=
  decide (b.id = bookingId) && decide (b.userId = actorId)

/-- `find_one_and_update` setting `status = "Confirmed"` on the first
booking matching id and owner, plus the confirmation notification. -/
def pay_booking (s : AppState) (actorId bookingId : Nat) : AppState :=
  match s.bookings.find? (ownedPred actorId bookingId) with
  | none => s
  | some b =>
    { s with
      bookings := updateFirst (ownedPred actorId bookingId)
        (fun x => { x with status := .confirmed }) s.bookings
      notifications := s.notifications ++ [⟨actorId, .bookingConfirmed b.areaId⟩] }

/-! ### `cancel_booking` (`/cancel_booking/<booking_id>`) -/

/-- The status dispatch of `/cancel_booking` once the owned booking is
found: delete a Pending Payment booking outright, mark a Confirmed booking
`Cancelled (User)` with a rounded 90% refund, do nothing for any other
status; in the first two cases release occupancy. -/
def cancelFound (s : AppState) (bookingId : Nat) (b : Booking) : AppState :=
  match b.status with
  | .pendingPayment =>
    { s with
      bookings := removeFirst (fun x => decide (x.id = bookingId)) s.bookings
      areas := incOcc s.areas b.areaId (-(b.spots : Int)) }
  | .confirmed =>
    { s with
      bookings := updateFirst (fun x => decide (x.id = b.id))
        (fun x => { x with status := .cancelledUser,
                           refundAmount := some (round2 (b.amount * (9 / 10))) })
        s.bookings
      areas := incOcc s.areas b.areaId (-(b.spots : Int)) }
  | _ => s

/-- The `/cancel_booking` route. -/
def cancel_booking (s : AppState) (actorId bookingId : Nat) : AppState :=
  match s.bookings.find? (ownedPred actorId bookingId) with
  | none => s
  | some b => cancelFound s bookingId b

/-! ### `extend_booking` (`/extend_booking/<booking_id>`) -/

/-- The collision query of `extend_booking`: same area, a shared slot, live
status, a different booking id, `start_time` before the new end and
`end_time` after the old end. -/
def extendCollides (areaId bookingId : Nat) (slotIds : List SlotId)
    (oldEnd newEnd : Int) (b : Booking) : Bool :=
  decide (b.areaId = areaId) &&
    b.slotIds.any (fun sid => slotIds.any (fun t => decide (sid = t))) &&
    isLive b.status && !decide (b.id = bookingId) &&
    decide (b.startTime < newEnd) && decide (oldEnd < b.endTime)

/-- The `/extend_booking` route: locate the owned booking (any status), read
its area (`area.get` raises when the area is missing, caught by the handler,
leaving the database unchanged), price the extension with the same per-slot
loop as booking, refuse when a later live booking on a shared slot starts
before the new end, else `$set` the new `end_time` and `$inc` `amount` by
the rounded extension cost and `duration` by the hours. -/
def extend_booking (s : AppState) (actorId bookingId : Nat) (hours : Nat) : AppState :=
  match s.bookings.find? (ownedPred actorId bookingId) with
  | none => s
  | some b =>
    match s.areas.find? (fun a => decide (a.id = b.areaId)) with
    | none => s
    | some area =>
      if s.bookings.any (extendCollides b.areaId bookingId b.slotIds b.endTime
          (b.endTime + 3600 * (hours : Int))) then s
      else
        { s with
          bookings := updateFirst (fun x => decide (x.id = bookingId))
            (fun x => { x with
                endTime := b.endTime + 3600 * (hours : Int)
                amount := x.amount + round2 (bookingTotal area.price hours b.slotIds)
                duration := x.duration + hours }) s.bookings }

/-! ### `verify_booking` (`/admin/verify_booking`)

The route locates one booking by vehicle number and entry/exit token; the
random tokens are not modelled, so the two flows below receive the located
booking's id.  The entry-token flow is `verify_checkin`, the exit-token
flow is `verify_checkout`. -/

/-- Entry flow: `Confirmed` or `Pending Payment` becomes `Active` with a
check-in stamp and a notification; any other status changes nothing. -/
def verify_checkin (s : AppState) (bookingId : Nat) (now : Int) : AppState :=
  match s.bookings.find? (fun b => decide (b.id = bookingId)) with
  | none => s
  | some b =>
    if b.status = .confirmed ∨ b.status = .pendingPayment then
      { s with
        bookings := updateFirst (fun x => decide (x.id = b.id))
          (fun x => { x with status := .active, checkInTime := some now }) s.bookings
        notifications := s.notifications ++ [⟨b.userId, .entryConfirmed b.areaId⟩] }
    else s

/-- The `$set`/`$inc` update document of the check-out flow, applied to the
stored booking: always sets `Completed` and the check-out stamp; the
penalty fields and the `$inc` on `amount` only when the penalty is
positive. -/
def checkoutUpdate (now : Int) (penalty : Rat) (overdueH : Nat) (x : Booking) : Booking :=
  if 0 < penalty then
    { x with status := .completed, checkOutTime := some now,
             penaltyApplied := true, overdueHours := overdueH,
             amount := x.amount + penalty }
  else { x with status := .completed, checkOutTime := some now }

/-- Common tail of the check-out flow: update the booking, release the
occupancy, notify the user. -/
def finishCheckout (s : AppState) (b : Booking) (now : Int) (penalty : Rat)
    (overdueH : Nat) : AppState :=
  { s with
    bookings := updateFirst (fun x => decide (x.id = b.id))
      (checkoutUpdate now penalty overdueH) s.bookings
    areas := incOcc s.areas b.areaId (-(b.spots : Int))
    notifications := s.notifications ++ [⟨b.userId, .exitConfirmed b.areaId⟩] }

/-- Exit flow once the booking is located: an `Active` booking is
completed; past `end_time` a penalty of `ceil(overdue/3600) × hourly_rate
× 2` is added first.  When the area document is missing, `area.get` raises
before any write, leaving the database unchanged. -/
def checkoutFound (s : AppState) (b : Booking) (now : Int) : AppState :=
  if b.status = .active then
    if b.endTime < now then
      match s.areas.find? (fun a => decide (a.id = b.areaId)) with
      | none => s
      | some area =>
        finishCheckout s b now
          ((ceilHours (now - b.endTime) : Rat) * hourlyRate area.price b.slotIds * 2)
          (ceilHours (now - b.endTime))
    else finishCheckout s b now 0 0
  else s

/-- Exit flow of `verify_booking`. -/
def verify_checkout (s : AppState) (bookingId : Nat) (now : Int) : AppState :=
  match s.bookings.find? (fun b => decide (b.id = bookingId)) with
  | none => s
  | some b => checkoutFound s b now

/-! ### `check_no_shows` (the no-show sweep) -/

/-- The notifications inserted for one freed slot: one per stored
`SlotPreference` matching the booking's area and the extracted level. -/
def slotFreedNotifs (prefs : List SlotPreference) (areaId level : Nat) : List Notification :=
  (prefs.filter (fun p => decide (p.areaId = areaId) && decide (p.level = level))).map
    (fun p => ⟨p.userId, .slotFreed areaId level⟩)

/-- The slot loop of one sweep iteration.  A slot whose level extraction
fails raises `ValueError`; `Except.error` carries the state at that point —
earlier slots' notifications are already inserted, later ones never
happen. -/
def processSlots (s : AppState) (areaId : Nat) : List SlotId → Except AppState AppState
  | [] => .ok s
  | sid :: rest =>
    match levelOf sid with
    | none => .error s
    | some level =>
      processSlots
        { s with notifications := s.notifications ++ slotFreedNotifs s.preferences areaId level }
        areaId rest

/-- One sweep iteration: mark the booking `Cancelled (No Show)` with an
unrounded 90% refund, decrement the area's occupancy, then run the slot
notification loop (which may raise). -/
def processBooking (s : AppState) (b : Booking) : Except AppState AppState :=
  processSlots
    { s with
      bookings := updateFirst (fun x => decide (x.id = b.id))
        (fun x => { x with status := .cancelledNoShow,
                           refundAmount := some (b.amount * (9 / 10)) }) s.bookings
      areas := incOcc s.areas b.areaId (-(b.spots : Int)) }
    b.areaId b.slotIds

/-- Fold of the sweep over the snapshot list; an exception aborts the whole
batch. -/
def sweepList (s : AppState) : List Booking → Except AppState AppState
  | [] => .ok s
  | b :: rest =>
    match processBooking s b with
    | .ok s' => sweepList s' rest
    | .error s' => .error s'

/-- The sweep's query: `status = "Confirmed"`, `grace_period_end < now`,
optionally restricted to one area. -/
def expiredFilter (now : Int) (areaFilter : Option Nat) (b : Booking) : Bool :=
  decide (b.status = .confirmed) && decide (b.gracePeriodEnd < now) &&
    (match areaFilter with
     | none => true
     | some aid => decide (b.areaId = aid))

/-- `check_no_shows(area_id=None)`: snapshot the expired Confirmed
bookings, then process each in order. -/
def check_no_shows (s : AppState) (now : Int) (areaFilter : Option Nat) :
    Except AppState AppState :=
  sweepList s (s.bookings.filter (expiredFilter now areaFilter))

/-! ### `check_expiry_reminders` -/

/-- The reminder query: `Active`, ending within the next 15 minutes, not
yet reminded. -/
def reminderFilter (now : Int) (b : Booking) : Bool :=
  decide (b.status = .active) && decide (b.endTime ≤ now + 900) &&
    decide (now < b.endTime) && !b.reminderSent

/-- The reminder loop over the snapshot. -/
def remindList (s : AppState) : List Booking → AppState
  | [] => s
  | b :: rest =>
    remindList
      { s with
        notifications := s.notifications ++ [⟨b.userId, .reminder b.id⟩]
        bookings := updateFirst (fun x => decide (x.id = b.id))
          (fun x => { x with reminderSent := true }) s.bookings } rest

/-- `check_expiry_reminders()`. -/
def check_expiry_reminders (s : AppState) (now : Int) : AppState :=
  remindList s (s.bookings.filter (reminderFilter now))

/-! ### Slot locks (`cleanup_locks`, `/api/lock_slot`, `/api/unlock_slot`) -/

/-- `cleanup_locks()`: `delete_many({expires_at: {$lt: now}})`. -/
def cleanup_locks (s : AppState) (now : Int) : AppState :=
  { s with locks := s.locks.filter (fun l => !(decide (l.expiresAt < now))) }

/-- Result of `/api/lock_slot`: HTTP 200 or the 409 `LockHeld` conflict. -/
inductive LockResult where
  | ok
  | lockHeld
  deriving DecidableEq, Repr

/-- `/api/lock_slot`: purge expired locks, refuse if the surviving lock on
the key belongs to someone else, otherwise upsert the caller's lock with a
fresh 5-minute expiry. -/
def lock_slot (s : AppState) (actorId areaId : Nat) (sid : SlotId) (now : Int) :
    LockResult × AppState :=
  match (cleanup_locks s now).locks.find? (lockKey areaId sid) with
  | some l =>
    if l.userId ≠ actorId then (.lockHeld, cleanup_locks s now)
    else
      (.ok, { cleanup_locks s now with
              locks := updateFirst (lockKey areaId sid)
                (fun x => { x with userId := actorId, expiresAt := now + 300 })
                (cleanup_locks s now).locks })
  | none =>
    (.ok, { cleanup_locks s now with
            locks := (cleanup_locks s now).locks ++ [⟨areaId, sid, actorId, now + 300⟩] })

/-- `/api/unlock_slot`: delete the lock only when the caller owns it. -/
def unlock_slot (s : AppState) (actorId areaId : Nat) (sid : SlotId) : AppState :=
  let newLocks := removeFirst
    (fun l => lockKey areaId sid l && decide (l.userId = actorId)) s.locks
  { s with locks := newLocks }

/-! ### The single-operation view for the occupancy invariant -/

/-- One lifecycle or sweeper operation. -/
inductive Op where
  | create (actor : Actor) (areaId? : Option Nat) (startRaw : Option (Option Int))
      (duration : Nat) (slotIds : List SlotId) (newId : Nat)
  | pay (actorId bookingId : Nat)
  | cancel (actorId bookingId : Nat)
  | checkIn (bookingId : Nat) (now : Int)
  | checkOut (bookingId : Nat) (now : Int)
  | extend (actorId bookingId hours : Nat)
  | sweep (now : Int) (areaFilter : Option Nat)
  | remind (now : Int)

/-- The state after one operation settles — for `create` a failed request
leaves the state unchanged, for `sweep` an aborted batch leaves the partial
state the exception interrupted. -/
def applyOp (s : AppState) : Op → AppState
  | .create actor aid st d sl nid =>
    match book_spot s actor aid st d sl nid with
    | .ok (s', _) => s'
    | .error _ => s
  | .pay u b => pay_booking s u b
  | .cancel u b => cancel_booking s u b
  | .checkIn b n => verify_checkin s b n
  | .checkOut b n => verify_checkout s b n
  | .extend u b h => extend_booking s u b h
  | .sweep n f =>
    match check_no_shows s n f with
    | .ok s' => s'
    | .error s' => s'
  | .remind n => check_expiry_reminders s n

/-- Sum of `spots` over an area's bookings with live status. -/
def liveSpots (bs : List Booking) (aid : Nat) : Int :=
  ((bs.filter (fun b => isLive b.status && decide (b.areaId = aid))).map
    (fun b => (b.spots : Int))).sum

/-- The occupancy invariant of the spec: every area's `occupied` equals the
sum of `spots` over its live bookings. -/
def occConsistent (s : AppState) : Prop :=
  ∀ a ∈ s.areas, a.occupied = liveSpots s.bookings a.id

/-- Structural sanity of the database: distinct booking ids, distinct area
ids, and every booking referencing a stored area. -/
def wellFormed (s : AppState) : Prop :=
  (s.bookings.map Booking.id).Nodup ∧ (s.areas.map ParkingArea.id).Nodup ∧
    ∀ b ∈ s.bookings, ∃ a ∈ s.areas, a.id = b.areaId

/-- Per-operation side condition: `pay_booking` must not be replayed on a
booking that already left the live states (the route itself does not
check). -/
def opSafe (s : AppState) : Op → Prop
  | .pay u bid => ∀ b ∈ s.bookings, b.id = bid → b.userId = u → isLive b.status = true
  | _ => True

/-- The `occupied` value of the (first) stored area with the given id. -/
def occOf (areas : List ParkingArea) (aid : Nat) : Option Int :=
  (areas.find? (fun a => decide (a.id = aid))).map ParkingArea.occupied

/-- Total `spots` of the bookings in `L` belonging to the given area. -/
def expiredSpots (L : List Booking) (aid : Nat) : Int :=
  ((L.filter (fun b => decide (b.areaId = aid))).map (fun b => (b.spots : Int))).sum

/-- The state a sweep run settles in, whether it finished or aborted. -/
def sweepOkState : Except AppState AppState → AppState
  | .ok s => s
  | .error s => s

/-- The stored `refund_amount` of the booking with the given id after a
sweep run (outer `none` when the booking is absent). -/
def refundOf (r : Except AppState AppState) (bid : Nat) : Option (Option Rat) :=
  ((sweepOkState r).bookings.find? (fun b => decide (b.id = bid))).map Booking.refundAmount

/-- The `$set` document the sweep applies to an expired booking: status
"Cancelled (No Show)" and an unrounded 90% refund. -/
def noShowUpdate (b : Booking) : Booking :=
  { b with status := .cancelledNoShow, refundAmount := some (b.amount * (9 / 10)) }

instance decOccConsistent (s : AppState) : Decidable (occConsistent s) :=
  decidable_of_iff (∀ a ∈ s.areas, a.occupied = liveSpots s.bookings a.id) Iff.rfl

instance decWellFormed (s : AppState) : Decidable (wellFormed s) :=
  decidable_of_iff ((s.bookings.map Booking.id).Nodup ∧
    (s.areas.map ParkingArea.id).Nodup ∧
    ∀ b ∈ s.bookings, ∃ a ∈ s.areas, a.id = b.areaId) Iff.rfl

instance decOpSafe (s : AppState) (op : Op) : Decidable (opSafe s op) :=
  match op with
  | .create _ _ _ _ _ _ => .isTrue trivial
  | .pay u bid =>
    decidable_of_iff
      (∀ b ∈ s.bookings, b.id = bid → b.userId = u → isLive b.status = true) Iff.rfl
  | .cancel _ _ => .isTrue trivial
  | .checkIn _ _ => .isTrue trivial
  | .checkOut _ _ => .isTrue trivial
  | .extend _ _ _ => .isTrue trivial
  | .sweep _ _ => .isTrue trivial
  | .remind _ => .isTrue trivial

/-! ### Concrete example data used by the witnesses and counterexamples -/

/-- A regular customer with a vehicle number on file. -/
def exActor : Actor := { id := 5, vehicleSet := true, isAdmin := false, managedAreaId := none }

/-- Template booking for the examples: user 5, area 1, window `[0, 3600)`,
grace end 900, one spot, Confirmed, amount 10. -/
def baseBooking : Booking :=
  { id := 0, userId := 5, areaId := 1, slotIds := [['S']], startTime := 0, endTime := 3600,
    gracePeriodEnd := 900, duration := 1, spots := 1, status := .confirmed, amount := 10,
    refundAmount := none, reminderSent := false, checkInTime := none, checkOutTime := none,
    penaltyApplied := false, overdueHours := 0 }

/-- Assemble a database with empty notification log. -/
def mkState (areas : List ParkingArea) (bookings : List Booking) (slots : List Slot)
    (locks : List SlotLock) (prefs : List SlotPreference) : AppState :=
  { areas := areas, bookings := bookings, slots := slots, locks := locks,
    notifications := [], preferences := prefs }

def exC1s : AppState :=
  mkState [⟨1, 5, 1, 20⟩] [{ baseBooking with id := 10, slotIds := [['L', '1', '-', 'C', '1']] }]
    [] [] [⟨7, 1, 1⟩]

def cexC1s : AppState := mkState [⟨1, 1, 0, 20⟩] [] [] [] []

def exC2s : AppState := mkState [⟨1, 10, 1, 20⟩] [{ baseBooking with id := 1, userId := 8 }] [] [] []

def cexC2b : Booking := { baseBooking with id := 1, userId := 8, status := .active }

def cexC2s : AppState := mkState [⟨1, 10, 1, 20⟩] [cexC2b] [] [] []

def exC3s : AppState :=
  mkState [⟨1, 10, 1, 20⟩] [{ baseBooking with id := 42, userId := 7, status := .pendingPayment }]
    [] [] []

def cexC3b : Booking := { baseBooking with id := 42, userId := 7, status := .completed }

def cexC3s : AppState := mkState [⟨1, 10, 0, 20⟩] [cexC3b] [] [] []

def exC4s : AppState :=
  mkState [⟨1, 5, 1, 20⟩] [{ baseBooking with id := 42, slotIds := [['L', '1', '-', 'C', '1']] }]
    [] [] [⟨7, 1, 1⟩]

def cexC4b : Booking :=
  { baseBooking with id := 42, amount := 413 / 100, slotIds := [['L', '1', '-', 'C', '1']] }

def cexC4s : AppState := mkState [⟨1, 5, 1, 20⟩] [cexC4b] [] [] []

def exC5s : AppState := mkState [⟨1, 10, 0, 20⟩] [] [] [] []

def exC6b : Booking :=
  { baseBooking with id := 9, status := .active, amount := 40, slotIds := [['C', '-', '0', '1']] }

def exC6s : AppState := mkState [⟨1, 10, 1, 20⟩] [exC6b] [] [] []

def exC7s : AppState := mkState [] [] [] [⟨1, ['S'], 9, 100⟩] []

def exC8s : AppState := mkState [⟨1, 10, 0, 20⟩] [] [] [⟨1, ['S'], 9, 100⟩] []

def cexC8s : AppState := mkState [⟨1, 10, 0, 20⟩] [] [] [⟨1, ['S'], 9, 5⟩] []

def exC9b1 : Booking := { baseBooking with id := 1, slotIds := [['B', '-', '0', '1']] }

def exC9b2 : Booking := { baseBooking with id := 2, slotIds := [['L', '1', '-', 'C', '1']] }

def exC9s : AppState := mkState [⟨1, 5, 2, 20⟩] [exC9b1, exC9b2] [] [] []

def exC10s : AppState := mkState [⟨1, 1, 0, 20⟩] [] [⟨1, 1, ['C', '-', '0', '1'], false⟩] [] []

/-! ### Helper lemmas about `liveSpots` and the first-match operations -/

/-- Contribution of one booking to an area's live-spot count. -/
def liveWeight (aid : Nat) (b : Booking) : Int :=
  if isLive b.status = true ∧ b.areaId = aid then (b.spots : Int) else 0

theorem liveSpots_nil (aid : Nat) : liveSpots [] aid = 0 := rfl

theorem liveSpots_cons (b : Booking) (bs : List Booking) (aid : Nat) :
    liveSpots (b :: bs) aid = liveWeight aid b + liveSpots bs aid := by
  by_cases h : isLive b.status = true ∧ b.areaId = aid
  · have hb : (isLive b.status && decide (b.areaId = aid)) = true := by
      simp [h.1, h.2]
    simp [liveSpots, liveWeight, List.filter_cons, hb, h]
  · have hb : (isLive b.status && decide (b.areaId = aid)) = false := by
      rcases not_and_or.mp h with h1 | h2
      · simp [Bool.eq_false_iff.mpr h1]
      · simp [h2]
    simp [liveSpots, liveWeight, List.filter_cons, hb, h]

theorem liveSpots_append (xs ys : List Booking) (aid : Nat) :
    liveSpots (xs ++ ys) aid = liveSpots xs aid + liveSpots ys aid := by
  simp [liveSpots, List.filter_append]

theorem liveWeight_congr {x y : Booking} (h1 : y.areaId = x.areaId)
    (h2 : y.spots = x.spots) (h3 : isLive y.status = isLive x.status) (aid : Nat) :
    liveWeight aid y = liveWeight aid x := by
  simp [liveWeight, h1, h2, h3]

theorem updateFirst_of_forall_neg {p : α → Bool} {f : α → α} {l : List α}
    (h : ∀ x ∈ l, p x = false) : updateFirst p f l = l := by
  induction l with
  | nil => rfl
  | cons x xs ih =>
    simp [updateFirst, h x (by simp), ih fun y hy => h y (by simp [hy])]

theorem mem_updateFirst_of_neg {p : α → Bool} {f : α → α} {l : List α} {x : α}
    (hx : x ∈ l) (hpx : p x = false) : x ∈ updateFirst p f l := by
  induction l with
  | nil => cases hx
  | cons y ys ih =>
    rcases List.mem_cons.mp hx with rfl | hmem
    · simp [updateFirst, hpx]
    · cases hpy : p y
      · simpa [updateFirst, hpy] using Or.inr (ih hmem)
      · simp [updateFirst, hpy, hmem]

theorem map_updateFirst {key : α → β} {p : α → Bool} {f : α → α} (l : List α)
    (h : ∀ x, key (f x) = key x) : (updateFirst p f l).map key = l.map key := by
  induction l with
  | nil => rfl
  | cons x xs ih =>
    cases hp : p x
    · simp [updateFirst, hp, ih]
    · simp [updateFirst, hp, h]

theorem liveSpots_updateFirst_unique {bs : List Booking} {p : Booking → Bool}
    {f : Booking → Booking} {b : Booking} (hb : b ∈ bs) (hpb : p b = true)
    (huniq : ∀ x ∈ bs, p x = true → x = b) (aid : Nat) :
    liveSpots (updateFirst p f bs) aid
      = liveSpots bs aid - liveWeight aid b + liveWeight aid (f b) := by
  induction bs with
  | nil => cases hb
  | cons y ys ih =>
    cases hpy : p y
    · have hbys : b ∈ ys := by
        rcases List.mem_cons.mp hb with rfl | h
        · rw [hpy] at hpb; cases hpb
        · exact h
      have ih' := ih hbys fun x hx hpx => huniq x (by simp [hx]) hpx
      simp only [updateFirst, hpy]
      rw [if_neg (by simp), liveSpots_cons, liveSpots_cons, ih']
      omega
    · have hyb : y = b := huniq y (by simp) hpy
      subst hyb
      simp only [updateFirst, hpy]
      rw [if_pos trivial, liveSpots_cons, liveSpots_cons]
      omega

theorem liveSpots_removeFirst_unique {bs : List Booking} {p : Booking → Bool}
    {b : Booking} (hb : b ∈ bs) (hpb : p b = true)
    (huniq : ∀ x ∈ bs, p x = true → x = b) (aid : Nat) :
    liveSpots (removeFirst p bs) aid = liveSpots bs aid - liveWeight aid b := by
  induction bs with
  | nil => cases hb
  | cons y ys ih =>
    cases hpy : p y
    · have hbys : b ∈ ys := by
        rcases List.mem_cons.mp hb with rfl | h
        · rw [hpy] at hpb; cases hpb
        · exact h
      have ih' := ih hbys fun x hx hpx => huniq x (by simp [hx]) hpx
      simp only [removeFirst, hpy]
      rw [if_neg (by simp), liveSpots_cons, liveSpots_cons, ih']
      omega
    · have hyb : y = b := huniq y (by simp) hpy
      subst hyb
      simp only [removeFirst, hpy]
      rw [if_pos trivial, liveSpots_cons]
      omega

theorem liveSpots_updateFirst_pres {bs : List Booking} {p : Booking → Bool}
    {f : Booking → Booking}
    (h : ∀ x ∈ bs, p x = true →
      (f x).areaId = x.areaId ∧ (f x).spots = x.spots ∧ isLive (f x).status = isLive x.status)
    (aid : Nat) : liveSpots (updateFirst p f bs) aid = liveSpots bs aid := by
  induction bs with
  | nil => rfl
  | cons y ys ih =>
    cases hpy : p y
    · have ih' := ih fun x hx hpx => h x (by simp [hx]) hpx
      simp only [updateFirst, hpy]
      rw [if_neg (by simp), liveSpots_cons, liveSpots_cons, ih']
    · obtain ⟨h1, h2, h3⟩ := h y (by simp) hpy
      simp only [updateFirst, hpy]
      rw [if_pos trivial, liveSpots_cons, liveSpots_cons, liveWeight_congr h1 h2 h3]

theorem eq_of_nodup_key {key : α → β} {l : List α} (hnd : (l.map key).Nodup)
    {x y : α} (hx : x ∈ l) (hy : y ∈ l) (hxy : key x = key y) : x = y :=
  List.inj_on_of_nodup_map hnd hx hy hxy

theorem incOcc_cons_pos {a : ParkingArea} {aid : Nat} (as : List ParkingArea) (n : Int)
    (h : a.id = aid) :
    incOcc (a :: as) aid n = { a with occupied := a.occupied + n } :: as := by
  simp [incOcc, updateFirst, h]

theorem incOcc_cons_neg {a : ParkingArea} {aid : Nat} (as : List ParkingArea) (n : Int)
    (h : ¬a.id = aid) : incOcc (a :: as) aid n = a :: incOcc as aid n := by
  simp [incOcc, updateFirst, h]

theorem setOcc_cons_pos {a : ParkingArea} {aid : Nat} (as : List ParkingArea) (v : Int)
    (h : a.id = aid) :
    setOcc (a :: as) aid v = { a with occupied := v } :: as := by
  simp [setOcc, updateFirst, h]

theorem setOcc_cons_neg {a : ParkingArea} {aid : Nat} (as : List ParkingArea) (v : Int)
    (h : ¬a.id = aid) : setOcc (a :: as) aid v = a :: setOcc as aid v := by
  simp [setOcc, updateFirst, h]

theorem incOcc_consistent {areas : List ParkingArea} {oldB newB : List Booking}
    {aid0 : Nat} {n : Int} (hnd : (areas.map ParkingArea.id).Nodup)
    (hc : ∀ a ∈ areas, a.occupied = liveSpots oldB a.id)
    (hnew : ∀ aid, liveSpots newB aid = liveSpots oldB aid + (if aid0 = aid then n else 0)) :
    ∀ a ∈ incOcc areas aid0 n, a.occupied = liveSpots newB a.id := by
  induction areas with
  | nil => intro a ha; simp [incOcc, updateFirst] at ha
  | cons a as ih =>
    rw [List.map_cons, List.nodup_cons] at hnd
    obtain ⟨hnd1, hnd2⟩ := hnd
    intro a' ha'
    by_cases hpa : a.id = aid0
    · rw [incOcc_cons_pos as n hpa] at ha'
      rcases List.mem_cons.mp ha' with rfl | hmem
      · show a.occupied + n = liveSpots newB a.id
        rw [hnew, if_pos hpa.symm, hc a (by simp)]
      · have hne : aid0 ≠ a'.id := by
          intro heq
          exact hnd1 (by
            rw [hpa, heq]
            exact List.mem_map_of_mem ParkingArea.id hmem)
        rw [hnew, if_neg hne, add_zero]
        exact hc a' (by simp [hmem])
    · rw [incOcc_cons_neg as n hpa] at ha'
      rcases List.mem_cons.mp ha' with rfl | hmem
      · rw [hnew, if_neg fun heq => hpa heq.symm, add_zero]
        exact hc a' (by simp)
      · exact ih hnd2 (fun x hx => hc x (by simp [hx])) a' hmem

theorem setOcc_eq_incOcc {areas : List ParkingArea} {aid : Nat} {area : ParkingArea}
    (n : Int) (h : areas.find? (fun a => decide (a.id = aid)) = some area) :
    setOcc areas aid (area.occupied + n) = incOcc areas aid n := by
  induction areas with
  | nil => simp [List.find?] at h
  | cons a as ih =>
    by_cases hpa : a.id = aid
    · have harea : area = a := by
        rw [List.find?_cons_of_pos _ (by simp [hpa])] at h
        exact (Option.some.inj h).symm
      subst harea
      rw [setOcc_cons_pos as _ hpa, incOcc_cons_pos as n hpa]
    · rw [List.find?_cons_of_neg _ (by simp [hpa])] at h
      rw [setOcc_cons_neg as _ hpa, incOcc_cons_neg as n hpa, ih h]

theorem liveSpots_nonneg (bs : List Booking) (aid : Nat) : 0 ≤ liveSpots bs aid := by
  unfold liveSpots
  apply List.sum_nonneg
  intro x hx
  obtain ⟨b, -, rfl⟩ := List.mem_map.mp hx
  exact Int.natCast_nonneg _

/-! ### Field computations for the inserted booking -/

theorem mkBooking_slotIds (actor : Actor) (areaId : Nat) (startTime : Int) (d : Nat)
    (slots : List SlotId) (nid : Nat) (p : Rat) :
    (mkBooking actor areaId startTime d slots nid p).slotIds = slots := rfl

theorem mkBooking_areaId (actor : Actor) (areaId : Nat) (startTime : Int) (d : Nat)
    (slots : List SlotId) (nid : Nat) (p : Rat) :
    (mkBooking actor areaId startTime d slots nid p).areaId = areaId := rfl

theorem mkBooking_spots (actor : Actor) (areaId : Nat) (startTime : Int) (d : Nat)
    (slots : List SlotId) (nid : Nat) (p : Rat) :
    (mkBooking actor areaId startTime d slots nid p).spots = slots.length := rfl

theorem mkBooking_status (actor : Actor) (areaId : Nat) (startTime : Int) (d : Nat)
    (slots : List SlotId) (nid : Nat) (p : Rat) :
    (mkBooking actor areaId startTime d slots nid p).status = .pendingPayment := rfl

theorem mkBooking_startTime (actor : Actor) (areaId : Nat) (startTime : Int) (d : Nat)
    (slots : List SlotId) (nid : Nat) (p : Rat) :
    (mkBooking actor areaId startTime d slots nid p).startTime = startTime := rfl

theorem mkBooking_endTime (actor : Actor) (areaId : Nat) (startTime : Int) (d : Nat)
    (slots : List SlotId) (nid : Nat) (p : Rat) :
    (mkBooking actor areaId startTime d slots nid p).endTime
      = startTime + 3600 * (d : Int) := rfl

theorem mkBooking_amount (actor : Actor) (areaId : Nat) (startTime : Int) (d : Nat)
    (slots : List SlotId) (nid : Nat) (p : Rat) :
    (mkBooking actor areaId startTime d slots nid p).amount
      = round2 (if actor.isAdmin || actor.managedAreaId.isSome then
                  bookingTotal p d slots * (1 / 4)
                else bookingTotal p d slots) := rfl

/-! ### Success and failure characterizations of `book_spot` -/

theorem book_spot_ok_elim {s : AppState} {actor : Actor} {aid? : Option Nat}
    {sraw : Option (Option Int)} {d : Nat} {slots : List SlotId} {nid : Nat}
    {s' : AppState} {nb : Booking}
    (h : book_spot s actor aid? sraw d slots nid = .ok (s', nb)) :
    ∃ areaId startTime area, aid? = some areaId ∧ sraw = some (some startTime) ∧
      slots ≠ [] ∧ actor.vehicleSet = true ∧
      s.areas.find? (fun a => decide (a.id = areaId)) = some area ∧
      s.bookings.any (collides areaId startTime (startTime + 3600 * (d : Int)) slots)
        = false ∧
      lockConflict? s.locks areaId actor.id slots = none ∧
      nb = mkBooking actor areaId startTime d slots nid area.price ∧
      s' = bookedState s actor areaId area nb := by
  cases aid? with
  | none => simp [book_spot] at h
  | some areaId =>
  cases sraw with
  | none => simp [book_spot] at h
  | some start? =>
  by_cases hne : slots = []
  · simp [book_spot, hne] at h
  by_cases hveh : actor.vehicleSet = false
  · simp [book_spot, hne, hveh] at h
  cases start? with
  | none => simp [book_spot, hne, hveh] at h
  | some startTime =>
  cases hfind : s.areas.find? (fun a => decide (a.id = areaId)) with
  | none => simp [book_spot, hne, hveh, hfind] at h
  | some area =>
  cases hcol : s.bookings.any
      (collides areaId startTime (startTime + 3600 * (d : Int)) slots) with
  | true => simp [book_spot, hne, hveh, hfind, hcol] at h
  | false =>
  cases hlock : lockConflict? s.locks areaId actor.id slots with
  | some sid => simp [book_spot, hne, hveh, hfind, hcol, hlock] at h
  | none =>
  simp only [book_spot, hfind, hcol, hlock, if_neg hne, Bool.false_eq_true, if_false] at h
  rw [if_neg hveh] at h
  obtain ⟨hs, hb⟩ := Prod.mk.inj (Except.ok.inj h)
  exact ⟨areaId, startTime, area, rfl, rfl, hne, by simpa using hveh, hfind, hcol, hlock,
    hb.symm, hb ▸ hs.symm⟩

theorem book_spot_ok_intro {s : AppState} {actor : Actor} {areaId : Nat}
    {startTime : Int} {d : Nat} {slots : List SlotId} {nid : Nat} {area : ParkingArea}
    (hne : slots ≠ []) (hveh : actor.vehicleSet = true)
    (hfind : s.areas.find? (fun a => decide (a.id = areaId)) = some area)
    (hcol : s.bookings.any (collides areaId startTime (startTime + 3600 * (d : Int)) slots)
      = false)
    (hlock : lockConflict? s.locks areaId actor.id slots = none) :
    book_spot s actor (some areaId) (some (some startTime)) d slots nid
      = .ok (bookedState s actor areaId area
               (mkBooking actor areaId startTime d slots nid area.price),
             mkBooking actor areaId startTime d slots nid area.price) := by
  simp only [book_spot, hfind, hcol, hlock, if_neg hne, Bool.false_eq_true, if_false]
  rw [if_neg (by simp [hveh])]

/-! ### Equation lemmas for the branching operations -/

theorem pay_booking_eq_none {s : AppState} {u bid : Nat}
    (hfind : s.bookings.find? (ownedPred u bid) = none) :
    pay_booking s u bid = s := by
  unfold pay_booking
  rw [hfind]

theorem pay_booking_eq_some {s : AppState} {u bid : Nat} {b : Booking}
    (hfind : s.bookings.find? (ownedPred u bid) = some b) :
    pay_booking s u bid
      = { s with
          bookings := updateFirst (ownedPred u bid)
            (fun x => { x with status := .confirmed }) s.bookings
          notifications := s.notifications ++ [⟨u, .bookingConfirmed b.areaId⟩] } := by
  unfold pay_booking
  rw [hfind]

theorem cancel_booking_eq_none {s : AppState} {u bid : Nat}
    (hfind : s.bookings.find? (ownedPred u bid) = none) :
    cancel_booking s u bid = s := by
  unfold cancel_booking
  rw [hfind]

theorem cancel_booking_eq_found {s : AppState} {u bid : Nat} {b : Booking}
    (hfind : s.bookings.find? (ownedPred u bid) = some b) :
    cancel_booking s u bid = cancelFound s bid b := by
  unfold cancel_booking
  rw [hfind]

theorem cancel_booking_eq_pending {s : AppState} {u bid : Nat} {b : Booking}
    (hfind : s.bookings.find? (ownedPred u bid) = some b)
    (hstat : b.status = .pendingPayment) :
    cancel_booking s u bid
      = { s with
          bookings := removeFirst (fun x => decide (x.id = bid)) s.bookings
          areas := incOcc s.areas b.areaId (-(b.spots : Int)) } := by
  rw [cancel_booking_eq_found hfind]
  unfold cancelFound
  rw [hstat]

theorem cancel_booking_eq_confirmed {s : AppState} {u bid : Nat} {b : Booking}
    (hfind : s.bookings.find? (ownedPred u bid) = some b)
    (hstat : b.status = .confirmed) :
    cancel_booking s u bid
      = { s with
          bookings := updateFirst (fun x => decide (x.id = b.id))
            (fun x => { x with status := .cancelledUser,
                               refundAmount := some (round2 (b.amount * (9 / 10))) })
            s.bookings
          areas := incOcc s.areas b.areaId (-(b.spots : Int)) } := by
  rw [cancel_booking_eq_found hfind]
  unfold cancelFound
  rw [hstat]

theorem cancel_booking_eq_other {s : AppState} {u bid : Nat} {b : Booking}
    (hfind : s.bookings.find? (ownedPred u bid) = some b)
    (h1 : b.status ≠ .pendingPayment) (h2 : b.status ≠ .confirmed) :
    cancel_booking s u bid = s := by
  rw [cancel_booking_eq_found hfind]
  unfold cancelFound
  cases hstat : b.status
  · exact absurd hstat h1
  · exact absurd hstat h2
  · rfl
  · rfl
  · rfl
  · rfl

theorem verify_checkin_eq_none {s : AppState} {bid : Nat} {now : Int}
    (hfind : s.bookings.find? (fun b => decide (b.id = bid)) = none) :
    verify_checkin s bid now = s := by
  unfold verify_checkin
  rw [hfind]

theorem verify_checkin_eq_go {s : AppState} {bid : Nat} {now : Int} {b : Booking}
    (hfind : s.bookings.find? (fun b => decide (b.id = bid)) = some b)
    (hst : b.status = .confirmed ∨ b.status = .pendingPayment) :
    verify_checkin s bid now
      = { s with
          bookings := updateFirst (fun x => decide (x.id = b.id))
            (fun x => { x with status := .active, checkInTime := some now }) s.bookings
          notifications := s.notifications ++ [⟨b.userId, .entryConfirmed b.areaId⟩] } := by
  unfold verify_checkin
  rw [hfind]
  exact if_pos hst

theorem verify_checkin_eq_skip {s : AppState} {bid : Nat} {now : Int} {b : Booking}
    (hfind : s.bookings.find? (fun b => decide (b.id = bid)) = some b)
    (hst : ¬(b.status = .confirmed ∨ b.status = .pendingPayment)) :
    verify_checkin s bid now = s := by
  unfold verify_checkin
  rw [hfind]
  exact if_neg hst

theorem remindList_cons (s : AppState) (b : Booking) (rest : List Booking) :
    remindList s (b :: rest)
      = remindList
          { s with
            notifications := s.notifications ++ [⟨b.userId, .reminder b.id⟩]
            bookings := updateFirst (fun x => decide (x.id = b.id))
              (fun x => { x with reminderSent := true }) s.bookings } rest := rfl

/-! ### Occupancy-invariant preservation, one lemma per operation -/

theorem occConsistent_of_fields {s t : AppState} (hb : t.bookings = s.bookings)
    (ha : t.areas = s.areas) (hc : occConsistent s) : occConsistent t := by
  intro a hmem
  rw [hb]
  exact hc a (ha ▸ hmem)

theorem create_occConsistent (s : AppState) (actor : Actor) (aid? : Option Nat)
    (sraw : Option (Option Int)) (d : Nat) (slots : List SlotId) (nid : Nat)
    (hndA : (s.areas.map ParkingArea.id).Nodup) (hc : occConsistent s) :
    occConsistent (applyOp s (.create actor aid? sraw d slots nid)) := by
  show occConsistent
    (match book_spot s actor aid? sraw d slots nid with
     | .ok (s', _) => s'
     | .error _ => s)
  cases hres : book_spot s actor aid? sraw d slots nid with
  | error e => exact hc
  | ok pr =>
    obtain ⟨s', nb⟩ := pr
    obtain ⟨areaId, startTime, area, -, -, -, -, hfind, -, -, hnb, hs'⟩ :=
      book_spot_ok_elim hres
    subst hs'
    show occConsistent (bookedState s actor areaId area nb)
    intro a ha
    have ha' : a ∈ incOcc s.areas areaId (nb.slotIds.length : Int) := by
      rw [← setOcc_eq_incOcc (nb.slotIds.length : Int) hfind]
      exact ha
    have hgoal := @incOcc_consistent _ _ (s.bookings ++ [nb]) _ _ hndA hc ?_ a ha'
    · exact hgoal
    intro aid
    rw [liveSpots_append, liveSpots_cons, liveSpots_nil, add_zero]
    subst hnb
    have hlw : liveWeight aid (mkBooking actor areaId startTime d slots nid area.price)
        = if areaId = aid then ((mkBooking actor areaId startTime d slots
            nid area.price).slotIds.length : Int) else 0 := by
      simp [liveWeight, mkBooking_status, mkBooking_areaId, mkBooking_spots,
        mkBooking_slotIds, isLive]
    rw [hlw]

theorem pay_booking_occConsistent (s : AppState) (u bid : Nat) (hc : occConsistent s)
    (hsafe : ∀ b ∈ s.bookings, b.id = bid → b.userId = u → isLive b.status = true) :
    occConsistent (pay_booking s u bid) := by
  cases hfind : s.bookings.find? (ownedPred u bid) with
  | none => rw [pay_booking_eq_none hfind]; exact hc
  | some b =>
    rw [pay_booking_eq_some hfind]
    intro a ha
    show a.occupied = liveSpots (updateFirst (ownedPred u bid)
      (fun x => { x with status := BStatus.confirmed }) s.bookings) a.id
    have hs : liveSpots (updateFirst (ownedPred u bid)
        (fun x => { x with status := BStatus.confirmed }) s.bookings) a.id
        = liveSpots s.bookings a.id := by
      apply liveSpots_updateFirst_pres
      intro x hx hpx
      have hxid : x.id = bid ∧ x.userId = u := by
        simpa [ownedPred, Bool.and_eq_true, decide_eq_true_eq] using hpx
      exact ⟨rfl, rfl, by rw [hsafe x hx hxid.1 hxid.2]; rfl⟩
    exact hs ▸ hc a ha

theorem cancel_booking_occConsistent (s : AppState) (u bid : Nat)
    (hndB : (s.bookings.map Booking.id).Nodup)
    (hndA : (s.areas.map ParkingArea.id).Nodup)
    (hc : occConsistent s) : occConsistent (cancel_booking s u bid) := by
  cases hfind : s.bookings.find? (ownedPred u bid) with
  | none => rw [cancel_booking_eq_none hfind]; exact hc
  | some b =>
    have hbmem : b ∈ s.bookings := List.mem_of_find?_eq_some hfind
    have hbp := List.find?_some hfind
    have hbid : b.id = bid := by
      have := (Bool.and_eq_true _ _).mp hbp
      exact of_decide_eq_true this.1
    have huniq : ∀ x ∈ s.bookings, decide (x.id = bid) = true → x = b := by
      intro x hx hpx
      exact eq_of_nodup_key hndB hx hbmem (by rw [of_decide_eq_true hpx, hbid])
    by_cases hpend : b.status = BStatus.pendingPayment
    · rw [cancel_booking_eq_pending hfind hpend]
      intro a ha
      have hgoal := @incOcc_consistent _ _
        (removeFirst (fun x => decide (x.id = bid)) s.bookings) _ _ hndA hc ?_ a ha
      · exact hgoal
      intro aid
      rw [liveSpots_removeFirst_unique hbmem (by simp [hbid]) huniq aid]
      have hw : liveWeight aid b = if b.areaId = aid then (b.spots : Int) else 0 := by
        simp [liveWeight, hpend, isLive]
      rw [hw]
      by_cases haid : b.areaId = aid
      · rw [if_pos haid, if_pos haid]; omega
      · rw [if_neg haid, if_neg haid]; omega
    · by_cases hconf : b.status = BStatus.confirmed
      · rw [cancel_booking_eq_confirmed hfind hconf]
        intro a ha
        have huniq' : ∀ x ∈ s.bookings, decide (x.id = b.id) = true → x = b := by
          intro x hx hpx
          exact eq_of_nodup_key hndB hx hbmem (of_decide_eq_true hpx)
        have hgoal := @incOcc_consistent _ _
          (updateFirst (fun x => decide (x.id = b.id))
            (fun x => { x with status := .cancelledUser,
                               refundAmount := some (round2 (b.amount * (9 / 10))) })
            s.bookings) _ _ hndA hc ?_ a ha
        · exact hgoal
        intro aid
        rw [liveSpots_updateFirst_unique hbmem (by simp) huniq' aid]
        have hw : liveWeight aid b = if b.areaId = aid then (b.spots : Int) else 0 := by
          simp [liveWeight, hconf, isLive]
        have hw2 : liveWeight aid
            { b with status := BStatus.cancelledUser,
                     refundAmount := some (round2 (b.amount * (9 / 10))) } = 0 := by
          simp [liveWeight, isLive]
        rw [hw, hw2]
        by_cases haid : b.areaId = aid
        · rw [if_pos haid, if_pos haid]; omega
        · rw [if_neg haid, if_neg haid]; omega
      · rw [cancel_booking_eq_other hfind hpend hconf]
        exact hc

theorem verify_checkin_occConsistent (s : AppState) (bid : Nat) (now : Int)
    (hndB : (s.bookings.map Booking.id).Nodup) (hc : occConsistent s) :
    occConsistent (verify_checkin s bid now) := by
  cases hfind : s.bookings.find? (fun b => decide (b.id = bid)) with
  | none => rw [verify_checkin_eq_none hfind]; exact hc
  | some b =>
    have hbmem : b ∈ s.bookings := List.mem_of_find?_eq_some hfind
    by_cases hst : b.status = BStatus.confirmed ∨ b.status = BStatus.pendingPayment
    · rw [verify_checkin_eq_go hfind hst]
      intro a ha
      show a.occupied = liveSpots (updateFirst (fun x => decide (x.id = b.id))
        (fun x => { x with status := BStatus.active, checkInTime := some now })
        s.bookings) a.id
      have hs : liveSpots (updateFirst (fun x => decide (x.id = b.id))
          (fun x => { x with status := BStatus.active, checkInTime := some now })
          s.bookings) a.id = liveSpots s.bookings a.id := by
        apply liveSpots_updateFirst_pres
        intro x hx hpx
        have hx' : x = b := eq_of_nodup_key hndB hx hbmem (of_decide_eq_true hpx)
        subst hx'
        refine ⟨rfl, rfl, ?_⟩
        rcases hst with hst | hst <;> rw [hst] <;> rfl
      exact hs ▸ hc a ha
    · rw [verify_checkin_eq_skip hfind hst]
      exact hc

theorem finishCheckout_occConsistent (s : AppState) (b : Booking) (now : Int)
    (penalty : Rat) (overdueH : Nat)
    (hndB : (s.bookings.map Booking.id).Nodup)
    (hndA : (s.areas.map ParkingArea.id).Nodup)
    (hc : occConsistent s) (hbmem : b ∈ s.bookings) (hactive : b.status = .active) :
    occConsistent (finishCheckout s b now penalty overdueH) := by
  intro a ha
  have ha' : a ∈ incOcc s.areas b.areaId (-(b.spots : Int)) := ha
  show a.occupied = liveSpots (updateFirst (fun x => decide (x.id = b.id))
    (checkoutUpdate now penalty overdueH) s.bookings) a.id
  have hgoal := @incOcc_consistent _ _
    (updateFirst (fun x => decide (x.id = b.id))
      (checkoutUpdate now penalty overdueH) s.bookings) _ _ hndA hc ?_ a ha'
  · exact hgoal
  intro aid
  have huniq : ∀ x ∈ s.bookings, decide (x.id = b.id) = true → x = b := by
    intro x hx hpx
    exact eq_of_nodup_key hndB hx hbmem (of_decide_eq_true hpx)
  rw [liveSpots_updateFirst_unique hbmem (by simp) huniq aid]
  have hw : liveWeight aid b = if b.areaId = aid then (b.spots : Int) else 0 := by
    simp [liveWeight, hactive, isLive]
  have hw2 : liveWeight aid (checkoutUpdate now penalty overdueH b) = 0 := by
    unfold checkoutUpdate
    split <;> simp [liveWeight, isLive]
  rw [hw, hw2]
  by_cases haid : b.areaId = aid
  · rw [if_pos haid, if_pos haid]; omega
  · rw [if_neg haid, if_neg haid]; omega

theorem verify_checkout_occConsistent (s : AppState) (bid : Nat) (now : Int)
    (hndB : (s.bookings.map Booking.id).Nodup)
    (hndA : (s.areas.map ParkingArea.id).Nodup)
    (hc : occConsistent s) : occConsistent (verify_checkout s bid now) := by
  cases hfind : s.bookings.find? (fun b => decide (b.id = bid)) with
  | none =>
    have heq : verify_checkout s bid now = s := by
      unfold verify_checkout
      rw [hfind]
    rw [heq]
    exact hc
  | some b =>
    have heq : verify_checkout s bid now = checkoutFound s b now := by
      unfold verify_checkout
      rw [hfind]
    rw [heq]
    have hbmem : b ∈ s.bookings := List.mem_of_find?_eq_some hfind
    unfold checkoutFound
    by_cases hst : b.status = BStatus.active
    · rw [if_pos hst]
      by_cases hover : b.endTime < now
      · rw [if_pos hover]
        cases hfa : s.areas.find? (fun a => decide (a.id = b.areaId)) with
        | none => exact hc
        | some area => exact finishCheckout_occConsistent s b now _ _ hndB hndA hc hbmem hst
      · rw [if_neg hover]
        exact finishCheckout_occConsistent s b now 0 0 hndB hndA hc hbmem hst
    · rw [if_neg hst]
      exact hc

theorem extend_booking_occConsistent (s : AppState) (u bid h : Nat)
    (hc : occConsistent s) : occConsistent (extend_booking s u bid h) := by
  cases hfind : s.bookings.find? (ownedPred u bid) with
  | none =>
    have heq : extend_booking s u bid h = s := by
      unfold extend_booking
      rw [hfind]
    rw [heq]
    exact hc
  | some b =>
    have heq : extend_booking s u bid h
        = (match s.areas.find? (fun a => decide (a.id = b.areaId)) with
           | none => s
           | some area =>
             if s.bookings.any (extendCollides b.areaId bid b.slotIds b.endTime
                 (b.endTime + 3600 * (h : Int))) then s
             else
               { s with
                 bookings := updateFirst (fun x => decide (x.id = bid))
                   (fun x => { x with
                       endTime := b.endTime + 3600 * (h : Int)
                       amount := x.amount + round2 (bookingTotal area.price h b.slotIds)
                       duration := x.duration + h }) s.bookings }) := by
      unfold extend_booking
      rw [hfind]
    rw [heq]
    cases hfa : s.areas.find? (fun a => decide (a.id = b.areaId)) with
    | none => exact hc
    | some area =>
      cases hcol : s.bookings.any (extendCollides b.areaId bid b.slotIds b.endTime
          (b.endTime + 3600 * (h : Int))) with
      | true => exact hc
      | false =>
        intro a ha
        show a.occupied = liveSpots (updateFirst (fun x => decide (x.id = bid))
          (fun x => { x with
              endTime := b.endTime + 3600 * (h : Int)
              amount := x.amount + round2 (bookingTotal area.price h b.slotIds)
              duration := x.duration + h }) s.bookings) a.id
        have hs : liveSpots (updateFirst (fun x => decide (x.id = bid))
            (fun x => { x with
                endTime := b.endTime + 3600 * (h : Int)
                amount := x.amount + round2 (bookingTotal area.price h b.slotIds)
                duration := x.duration + h }) s.bookings) a.id
            = liveSpots s.bookings a.id := by
          apply liveSpots_updateFirst_pres
          intro x hx hpx
          exact ⟨rfl, rfl, rfl⟩
        exact hs ▸ hc a ha

theorem remindList_occConsistent (L : List Booking) (s : AppState)
    (hc : occConsistent s) : occConsistent (remindList s L) := by
  induction L generalizing s with
  | nil => exact hc
  | cons b rest ih =>
    refine ih _ ?_
    intro a ha
    have hs : liveSpots (updateFirst (fun x => decide (x.id = b.id))
        (fun x => { x with reminderSent := true }) s.bookings) a.id
        = liveSpots s.bookings a.id := by
      apply liveSpots_updateFirst_pres
      intro x hx hpx
      exact ⟨rfl, rfl, rfl⟩
    exact hs ▸ hc a ha

/-! ### The sweep preserves the occupancy invariant -/

theorem processSlots_fields (aid : Nat) (sids : List SlotId) (s : AppState) :
    ∀ s', (processSlots s aid sids = .ok s' ∨ processSlots s aid sids = .error s') →
      s'.bookings = s.bookings ∧ s'.areas = s.areas := by
  induction sids generalizing s with
  | nil =>
    intro s' h
    rcases h with h | h
    · exact (Except.ok.inj h) ▸ ⟨rfl, rfl⟩
    · exact absurd h (by simp [processSlots])
  | cons sid rest ih =>
    intro s' h
    cases hl : levelOf sid with
    | none =>
      simp only [processSlots, hl] at h
      rcases h with h | h
      · exact absurd h (by simp)
      · exact (Except.error.inj h) ▸ ⟨rfl, rfl⟩
    | some lv =>
      simp only [processSlots, hl] at h
      exact ih { s with notifications := s.notifications ++ slotFreedNotifs s.preferences aid lv } s' h

theorem processBooking_fields (s : AppState) (b : Booking) :
    ∀ s', (processBooking s b = .ok s' ∨ processBooking s b = .error s') →
      s'.bookings = updateFirst (fun x => decide (x.id = b.id))
          (fun x => { x with status := .cancelledNoShow,
                             refundAmount := some (b.amount * (9 / 10)) }) s.bookings
        ∧ s'.areas = incOcc s.areas b.areaId (-(b.spots : Int)) := by
  intro s' h
  exact processSlots_fields b.areaId b.slotIds _ s' h

theorem map_id_incOcc (areas : List ParkingArea) (aid : Nat) (n : Int) :
    (incOcc areas aid n).map ParkingArea.id = areas.map ParkingArea.id :=
  map_updateFirst areas fun _ => rfl

theorem sweepList_occConsistent (L : List Booking) (s : AppState)
    (hndB : (s.bookings.map Booking.id).Nodup)
    (hndA : (s.areas.map ParkingArea.id).Nodup)
    (hc : occConsistent s)
    (hmem : ∀ x ∈ L, x ∈ s.bookings ∧ x.status = .confirmed)
    (hLnd : (L.map Booking.id).Nodup) :
    ∀ s', (sweepList s L = .ok s' ∨ sweepList s L = .error s') → occConsistent s' := by
  induction L generalizing s with
  | nil =>
    intro s' h
    rcases h with h | h
    · exact (Except.ok.inj h) ▸ hc
    · exact absurd h (by simp [sweepList])
  | cons b rest ih =>
    intro s' h
    obtain ⟨hbmem, hbconf⟩ := hmem b (by simp)
    rw [List.map_cons, List.nodup_cons] at hLnd
    obtain ⟨hbnotin, hndrest⟩ := hLnd
    have huniq : ∀ x ∈ s.bookings, decide (x.id = b.id) = true → x = b := by
      intro x hx hpx
      exact eq_of_nodup_key hndB hx hbmem (of_decide_eq_true hpx)
    have hnew : ∀ aid, liveSpots (updateFirst (fun x => decide (x.id = b.id))
        (fun x => { x with status := BStatus.cancelledNoShow,
                           refundAmount := some (b.amount * (9 / 10)) }) s.bookings) aid
        = liveSpots s.bookings aid
          + (if b.areaId = aid then -(b.spots : Int) else 0) := by
      intro aid
      rw [liveSpots_updateFirst_unique hbmem (by simp) huniq aid]
      have hw : liveWeight aid b = if b.areaId = aid then (b.spots : Int) else 0 := by
        simp [liveWeight, hbconf, isLive]
      have hw2 : liveWeight aid
          { b with status := BStatus.cancelledNoShow,
                   refundAmount := some (b.amount * (9 / 10)) } = 0 := by
        simp [liveWeight, isLive]
      rw [hw, hw2]
      by_cases haid : b.areaId = aid
      · rw [if_pos haid, if_pos haid]; omega
      · rw [if_neg haid, if_neg haid]; omega
    have hc1 := incOcc_consistent hndA hc hnew
    have hocc2 : ∀ s2, (processBooking s b = .ok s2 ∨ processBooking s b = .error s2) →
        occConsistent s2 := by
      intro s2 hp2
      obtain ⟨hbk2, har2⟩ := processBooking_fields s b s2 hp2
      intro a ha
      rw [hbk2]
      exact hc1 a (har2 ▸ ha)
    cases hpb : processBooking s b with
    | ok s2 =>
      simp only [sweepList, hpb] at h
      obtain ⟨hbk2, har2⟩ := processBooking_fields s b s2 (Or.inl hpb)
      have hndB2 : (s2.bookings.map Booking.id).Nodup := by
        have hmap : (updateFirst (fun x => decide (x.id = b.id))
            (fun x => { x with status := BStatus.cancelledNoShow,
                               refundAmount := some (b.amount * (9 / 10)) })
            s.bookings).map Booking.id = s.bookings.map Booking.id :=
          map_updateFirst s.bookings fun _ => rfl
        rw [hbk2, hmap]
        exact hndB
      have hndA2 : (s2.areas.map ParkingArea.id).Nodup := by
        rw [har2, map_id_incOcc]
        exact hndA
      have hmem2 : ∀ x ∈ rest, x ∈ s2.bookings ∧ x.status = .confirmed := by
        intro x hx
        obtain ⟨hxs, hxconf⟩ := hmem x (by simp [hx])
        refine ⟨?_, hxconf⟩
        rw [hbk2]
        apply mem_updateFirst_of_neg hxs
        apply decide_eq_false
        intro heq
        exact hbnotin (heq ▸ List.mem_map_of_mem Booking.id hx)
      exact ih s2 hndB2 hndA2 (hocc2 s2 (Or.inl hpb)) hmem2 hndrest s' h
    | error s2 =>
      simp only [sweepList, hpb] at h
      rcases h with h | h
      · exact absurd h (by simp)
      · exact (Except.error.inj h) ▸ hocc2 s2 (Or.inr hpb)

theorem check_no_shows_occConsistent (s : AppState) (now : Int) (filt : Option Nat)
    (hndB : (s.bookings.map Booking.id).Nodup)
    (hndA : (s.areas.map ParkingArea.id).Nodup)
    (hc : occConsistent s) :
    ∀ s', (check_no_shows s now filt = .ok s' ∨ check_no_shows s now filt = .error s') →
      occConsistent s' := by
  have hmem : ∀ x ∈ s.bookings.filter (expiredFilter now filt),
      x ∈ s.bookings ∧ x.status = .confirmed := by
    intro x hx
    have hx1 := List.mem_of_mem_filter hx
    have hx2 := List.of_mem_filter hx
    refine ⟨hx1, ?_⟩
    have := (Bool.and_eq_true _ _).mp ((Bool.and_eq_true _ _).mp hx2).1
    exact of_decide_eq_true this.1
  have hLnd : ((s.bookings.filter (expiredFilter now filt)).map Booking.id).Nodup :=
    List.Nodup.sublist (List.Sublist.map Booking.id (List.filter_sublist _)) hndB
  exact sweepList_occConsistent _ s hndB hndA hc hmem hLnd

theorem applyOp_occConsistent (s : AppState) (op : Op)
    (hndB : (s.bookings.map Booking.id).Nodup)
    (hndA : (s.areas.map ParkingArea.id).Nodup)
    (hc : occConsistent s) (hsafe : opSafe s op) :
    occConsistent (applyOp s op) := by
  cases op with
  | create actor aid sraw d sl nid =>
    exact create_occConsistent s actor aid sraw d sl nid hndA hc
  | pay u bid =>
    show occConsistent (pay_booking s u bid)
    exact pay_booking_occConsistent s u bid hc hsafe
  | cancel u bid =>
    show occConsistent (cancel_booking s u bid)
    exact cancel_booking_occConsistent s u bid hndB hndA hc
  | checkIn bid now =>
    show occConsistent (verify_checkin s bid now)
    exact verify_checkin_occConsistent s bid now hndB hc
  | checkOut bid now =>
    show occConsistent (verify_checkout s bid now)
    exact verify_checkout_occConsistent s bid now hndB hndA hc
  | extend u bid h =>
    show occConsistent (extend_booking s u bid h)
    exact extend_booking_occConsistent s u bid h hc
  | sweep now filt =>
    show occConsistent
      (match check_no_shows s now filt with
       | .ok s' => s'
       | .error s' => s')
    cases hres : check_no_shows s now filt with
    | ok s2 => exact check_no_shows_occConsistent s now filt hndB hndA hc s2 (Or.inl hres)
    | error s2 => exact check_no_shows_occConsistent s now filt hndB hndA hc s2 (Or.inr hres)
  | remind now =>
    show occConsistent (remindList s (s.bookings.filter (reminderFilter now)))
    exact remindList_occConsistent _ s hc

/-! ### Collision characterization of `book_spot` (for C2) -/

theorem any_collides_iff {bs : List Booking} {areaId : Nat} {startT endT : Int}
    {slots : List SlotId} :
    bs.any (collides areaId startT endT slots) = true ↔
      ∃ b ∈ bs, b.areaId = areaId ∧ isLive b.status = true ∧ b.startTime < endT ∧
        startT < b.endTime ∧ ∃ sid ∈ b.slotIds, sid ∈ slots := by
  simp [List.any_eq_true, collides, Bool.and_eq_true, decide_eq_true_eq, List.mem_filter]
  constructor
  · rintro ⟨b, hb, ⟨⟨⟨⟨h1, h2⟩, h3⟩, h4⟩, h5⟩⟩
    exact ⟨b, hb, h1, h2, h3, h4, h5⟩
  · rintro ⟨b, hb, h1, h2, h3, h4, h5⟩
    exact ⟨b, hb, ⟨⟨⟨⟨h1, h2⟩, h3⟩, h4⟩, h5⟩⟩

theorem book_spot_collision_iff {s : AppState} {actor : Actor} {areaId : Nat}
    {startTime : Int} {d : Nat} {slots : List SlotId} {nid : Nat} {area : ParkingArea}
    (hne : slots ≠ []) (hveh : actor.vehicleSet = true)
    (hfind : s.areas.find? (fun a => decide (a.id = areaId)) = some area) :
    book_spot s actor (some areaId) (some (some startTime)) d slots nid
        = .error .slotCollision
      ↔ s.bookings.any (collides areaId startTime (startTime + 3600 * (d : Int)) slots)
          = true := by
  constructor
  · intro h
    cases hcol : s.bookings.any
        (collides areaId startTime (startTime + 3600 * (d : Int)) slots) with
    | true => rfl
    | false =>
      exfalso
      cases hlock : lockConflict? s.locks areaId actor.id slots with
      | some sid => simp [book_spot, hne, hveh, hfind, hcol, hlock] at h
      | none =>
        rw [book_spot_ok_intro hne hveh hfind hcol hlock] at h
        simp at h
  · intro hcol
    simp [book_spot, hne, hveh, hfind, hcol]

theorem book_spot_no_overlap {s : AppState} {actor : Actor} {aid? : Option Nat}
    {sraw : Option (Option Int)} {d : Nat} {slots : List SlotId} {nid : Nat}
    {s' : AppState} {nb : Booking}
    (h : book_spot s actor aid? sraw d slots nid = .ok (s', nb)) :
    ∀ b ∈ s.bookings, isLive b.status = true → b.areaId = nb.areaId →
      (∃ sid ∈ b.slotIds, sid ∈ nb.slotIds) →
      ¬(b.startTime < nb.endTime ∧ nb.startTime < b.endTime) := by
  obtain ⟨areaId, startTime, area, -, -, -, -, -, hcol, -, hnb, -⟩ := book_spot_ok_elim h
  subst hnb
  intro b hb hlive harea hshared hover
  have hcb : collides areaId startTime (startTime + 3600 * (d : Int)) slots b = true := by
    simp only [collides, Bool.and_eq_true, decide_eq_true_eq]
    refine ⟨⟨⟨⟨harea, hlive⟩, ?_⟩, ?_⟩, ?_⟩
    · simpa [mkBooking_endTime] using hover.1
    · simpa [mkBooking_startTime] using hover.2
    · obtain ⟨sid, h1, h2⟩ := hshared
      rw [mkBooking_slotIds] at h2
      rw [List.any_eq_true]
      exact ⟨sid, h1, List.any_eq_true.mpr ⟨sid, h2, by simp⟩⟩
  exact absurd (List.any_eq_true.mpr ⟨b, hb, hcb⟩) (by simp [hcol])

/-! ### First-match and occupancy helper lemmas -/

theorem find?_eq_of_unique {l : List α} {p : α → Bool} {x : α} (hx : x ∈ l)
    (hpx : p x = true) (huniq : ∀ y ∈ l, p y = true → y = x) : l.find? p = some x := by
  induction l with
  | nil => cases hx
  | cons y ys ih =>
    cases hpy : p y
    · rw [List.find?_cons_of_neg _ (by simp [hpy])]
      have hxys : x ∈ ys := by
        rcases List.mem_cons.mp hx with rfl | h
        · rw [hpy] at hpx; cases hpx
        · exact h
      exact ih hxys fun z hz hpz => huniq z (by simp [hz]) hpz
    · rw [List.find?_cons_of_pos _ hpy]
      rw [huniq y (by simp) hpy]

theorem updateFirst_mem_of_find? {l : List α} {p : α → Bool} {f : α → α} {x : α}
    (h : l.find? p = some x) : f x ∈ updateFirst p f l := by
  induction l with
  | nil => simp [List.find?] at h
  | cons y ys ih =>
    cases hpy : p y
    · rw [List.find?_cons_of_neg _ (by simp [hpy])] at h
      simp only [updateFirst, hpy]
      rw [if_neg (by simp)]
      exact List.mem_cons_of_mem _ (ih h)
    · rw [List.find?_cons_of_pos _ hpy] at h
      cases Option.some.inj h
      simp only [updateFirst, hpy]
      rw [if_pos trivial]
      exact List.mem_cons_self _ _

theorem foldl_add_eq_sum {f : α → Rat} (l : List α) (init : Rat) :
    l.foldl (fun acc x => acc + f x) init = init + (l.map f).sum := by
  induction l generalizing init with
  | nil => simp
  | cons x xs ih =>
    simp only [List.foldl_cons, List.map_cons, List.sum_cons, ih]
    ring

theorem occOf_incOcc (areas : List ParkingArea) (aid0 aid : Nat) (n : Int) :
    occOf (incOcc areas aid0 n) aid
      = if aid0 = aid then (occOf areas aid).map (fun v => v + n) else occOf areas aid := by
  induction areas with
  | nil => simp [occOf, incOcc, updateFirst, List.find?]
  | cons a as ih =>
    by_cases hpa : a.id = aid0
    · rw [incOcc_cons_pos as n hpa]
      by_cases haid : a.id = aid
      · have h0 : aid0 = aid := hpa ▸ haid
        rw [if_pos h0]
        simp [occOf, List.find?_cons_of_pos, haid]
      · have h0 : ¬aid0 = aid := fun h => haid (hpa.symm ▸ h)
        rw [if_neg h0]
        simp only [occOf]
        rw [List.find?_cons_of_neg _ (by simp [haid]), List.find?_cons_of_neg _ (by simp [haid])]
    · rw [incOcc_cons_neg as n hpa]
      by_cases haid : a.id = aid
      · have h0 : ¬aid0 = aid := fun h => hpa (haid ▸ h.symm ▸ rfl)
        rw [if_neg h0]
        simp only [occOf]
        rw [List.find?_cons_of_pos _ (by simp [haid]), List.find?_cons_of_pos _ (by simp [haid])]
      · simp only [occOf] at ih ⊢
        rw [List.find?_cons_of_neg _ (by simp [haid]), List.find?_cons_of_neg _ (by simp [haid])]
        exact ih

theorem expiredSpots_cons (b : Booking) (rest : List Booking) (aid : Nat) :
    expiredSpots (b :: rest) aid
      = (if b.areaId = aid then (b.spots : Int) else 0) + expiredSpots rest aid := by
  by_cases h : b.areaId = aid
  · simp [expiredSpots, List.filter_cons, h]
  · simp [expiredSpots, List.filter_cons, h]

/-! ### Sweep run characterization -/

theorem mem_slotFreedNotifs {prefs : List SlotPreference} {aid lv : Nat} {p : SlotPreference}
    (hp : p ∈ prefs) (h1 : p.areaId = aid) (h2 : p.level = lv) :
    (⟨p.userId, NotifKind.slotFreed aid lv⟩ : Notification) ∈ slotFreedNotifs prefs aid lv := by
  unfold slotFreedNotifs
  exact List.mem_map_of_mem _ (List.mem_filter.mpr ⟨hp, by simp [h1, h2]⟩)

theorem processSlots_ok (aid : Nat) (sids : List SlotId) (s : AppState)
    (hparse : ∀ sid ∈ sids, (levelOf sid).isSome) :
    ∃ s', processSlots s aid sids = .ok s' ∧
      s'.bookings = s.bookings ∧ s'.areas = s.areas ∧ s'.preferences = s.preferences ∧
      (∃ extra, s'.notifications = s.notifications ++ extra) ∧
      (∀ sid ∈ sids, ∀ lv, levelOf sid = some lv →
        ∀ p ∈ s.preferences, p.areaId = aid → p.level = lv →
          (⟨p.userId, NotifKind.slotFreed aid lv⟩ : Notification) ∈ s'.notifications) := by
  induction sids generalizing s with
  | nil => exact ⟨s, rfl, rfl, rfl, rfl, ⟨[], by simp⟩, by simp⟩
  | cons t rest ih =>
    have hs := hparse t (by simp)
    cases hl : levelOf t with
    | none => rw [hl] at hs; cases hs
    | some lv =>
      obtain ⟨s', hrun, hbk, har, hpref, ⟨extra, hextra⟩, hnot⟩ :=
        ih { s with notifications := s.notifications ++ slotFreedNotifs s.preferences aid lv }
          (fun u hu => hparse u (by simp [hu]))
      refine ⟨s', ?_, hbk, har, hpref, ?_, ?_⟩
      · simp only [processSlots, hl]
        exact hrun
      · exact ⟨slotFreedNotifs s.preferences aid lv ++ extra, by rw [hextra]; simp⟩
      · intro u hu lv' hlv' p hp hpa hplv
        rcases List.mem_cons.mp hu with rfl | hu'
        · rw [hl] at hlv'
          cases Option.some.inj hlv'
          rw [hextra]
          exact List.mem_append_left _
            (List.mem_append_right _ (mem_slotFreedNotifs hp hpa hplv))
        · exact hnot u hu' lv' hlv' p hp hpa hplv

theorem processSlots_error (aid : Nat) (sids : List SlotId) (s : AppState)
    (hbad : ∃ sid ∈ sids, levelOf sid = none) :
    ∃ s', processSlots s aid sids = .error s' := by
  induction sids generalizing s with
  | nil =>
    obtain ⟨sid, h, -⟩ := hbad
    cases h
  | cons t rest ih =>
    cases hl : levelOf t with
    | none => exact ⟨s, by simp [processSlots, hl]⟩
    | some lv =>
      obtain ⟨sid, hmem, hnone⟩ := hbad
      rcases List.mem_cons.mp hmem with rfl | hmem'
      · rw [hl] at hnone; cases hnone
      · obtain ⟨s', h⟩ :=
          ih { s with notifications := s.notifications ++ slotFreedNotifs s.preferences aid lv }
            ⟨sid, hmem', hnone⟩
        refine ⟨s', ?_⟩
        simp only [processSlots, hl]
        exact h

theorem sweepList_preserves_mem (L : List Booking) (s : AppState) {x : Booking}
    (hx : x ∈ s.bookings) (hnot : ∀ b ∈ L, x.id ≠ b.id) :
    ∀ s', (sweepList s L = .ok s' ∨ sweepList s L = .error s') → x ∈ s'.bookings := by
  induction L generalizing s with
  | nil =>
    intro s' h
    rcases h with h | h
    · exact (Except.ok.inj h) ▸ hx
    · exact absurd h (by simp [sweepList])
  | cons b rest ih =>
    intro s' h
    have hx2 : ∀ s2, (processBooking s b = .ok s2 ∨ processBooking s b = .error s2) →
        x ∈ s2.bookings := by
      intro s2 hp2
      rw [(processBooking_fields s b s2 hp2).1]
      exact mem_updateFirst_of_neg hx (decide_eq_false (hnot b (by simp)))
    cases hpb : processBooking s b with
    | ok s2 =>
      simp only [sweepList, hpb] at h
      exact ih s2 (hx2 s2 (Or.inl hpb)) (fun b' hb' => hnot b' (by simp [hb'])) s' h
    | error s2 =>
      simp only [sweepList, hpb] at h
      rcases h with h | h
      · exact absurd h (by simp)
      · exact (Except.error.inj h) ▸ hx2 s2 (Or.inr hpb)


theorem processBooking_ok (s : AppState) (b : Booking)
    (hparse : ∀ sid ∈ b.slotIds, (levelOf sid).isSome) :
    ∃ s', processBooking s b = .ok s' ∧
      s'.bookings = updateFirst (fun x => decide (x.id = b.id))
        (fun x => { x with status := .cancelledNoShow,
                           refundAmount := some (b.amount * (9 / 10)) }) s.bookings ∧
      s'.areas = incOcc s.areas b.areaId (-(b.spots : Int)) ∧
      s'.preferences = s.preferences ∧
      (∃ extra, s'.notifications = s.notifications ++ extra) ∧
      (∀ sid ∈ b.slotIds, ∀ lv, levelOf sid = some lv →
        ∀ p ∈ s.preferences, p.areaId = b.areaId → p.level = lv →
          (⟨p.userId, NotifKind.slotFreed b.areaId lv⟩ : Notification) ∈ s'.notifications) := by
  obtain ⟨s', hrun, hbk, har, hpref, hext, hnot⟩ := processSlots_ok b.areaId b.slotIds
    { s with
      bookings := updateFirst (fun x => decide (x.id = b.id))
        (fun x => { x with status := .cancelledNoShow,
                           refundAmount := some (b.amount * (9 / 10)) }) s.bookings
      areas := incOcc s.areas b.areaId (-(b.spots : Int)) } hparse
  exact ⟨s', hrun, hbk, har, hpref, hext, hnot⟩

theorem sweepList_ok_spec (L : List Booking) (s : AppState)
    (hndB : (s.bookings.map Booking.id).Nodup)
    (hmem : ∀ x ∈ L, x ∈ s.bookings)
    (hLnd : (L.map Booking.id).Nodup)
    (hparse : ∀ x ∈ L, ∀ sid ∈ x.slotIds, (levelOf sid).isSome) :
    ∃ s', sweepList s L = .ok s' ∧
      (∀ b ∈ L, noShowUpdate b ∈ s'.bookings) ∧
      (∀ aid, occOf s'.areas aid = (occOf s.areas aid).map (fun v => v - expiredSpots L aid)) ∧
      s'.preferences = s.preferences ∧
      (∃ extra, s'.notifications = s.notifications ++ extra) ∧
      (∀ b ∈ L, ∀ sid ∈ b.slotIds, ∀ lv, levelOf sid = some lv →
        ∀ p ∈ s.preferences, p.areaId = b.areaId → p.level = lv →
          (⟨p.userId, NotifKind.slotFreed b.areaId lv⟩ : Notification) ∈ s'.notifications) := by
  induction L generalizing s with
  | nil =>
    refine ⟨s, rfl, by simp, ?_, rfl, ⟨[], by simp⟩, by simp⟩
    intro aid
    have hz : expiredSpots [] aid = 0 := rfl
    rw [hz]
    cases occOf s.areas aid <;> simp
  | cons b rest ih =>
    rw [List.map_cons, List.nodup_cons] at hLnd
    obtain ⟨hbnotin, hndrest⟩ := hLnd
    have hbmem : b ∈ s.bookings := hmem b (by simp)
    obtain ⟨s2, hrun2, hbk2, har2, hpref2, ⟨e2, hext2⟩, hnot2⟩ :=
      processBooking_ok s b (hparse b (by simp))
    have hndB2 : (s2.bookings.map Booking.id).Nodup := by
      have hmap : (updateFirst (fun x => decide (x.id = b.id))
          (fun x => { x with status := BStatus.cancelledNoShow,
                             refundAmount := some (b.amount * (9 / 10)) })
          s.bookings).map Booking.id = s.bookings.map Booking.id :=
        map_updateFirst s.bookings fun _ => rfl
      rw [hbk2, hmap]
      exact hndB
    have hmem2 : ∀ x ∈ rest, x ∈ s2.bookings := by
      intro x hx
      rw [hbk2]
      refine mem_updateFirst_of_neg (hmem x (by simp [hx])) (decide_eq_false ?_)
      intro heq
      exact hbnotin (heq ▸ List.mem_map_of_mem Booking.id hx)
    obtain ⟨s', hrun', hupd', hocc', hpref', ⟨e', hext'⟩, hnot'⟩ :=
      ih s2 hndB2 hmem2 hndrest (fun x hx => hparse x (by simp [hx]))
    refine ⟨s', ?_, ?_, ?_, ?_, ?_, ?_⟩
    · simp only [sweepList, hrun2]
      exact hrun'
    · intro x hx
      rcases List.mem_cons.mp hx with rfl | hx'
      · have hin2 : noShowUpdate x ∈ s2.bookings := by
          rw [hbk2]
          have hfind : s.bookings.find? (fun y => decide (y.id = x.id)) = some x :=
            find?_eq_of_unique hbmem (by simp)
              (fun y hy hpy => eq_of_nodup_key hndB hy hbmem (of_decide_eq_true hpy))
          exact updateFirst_mem_of_find? hfind
        refine sweepList_preserves_mem rest s2 hin2 ?_ s' (Or.inl hrun')
        intro b' hb' heq
        apply hbnotin
        have hmm : b'.id ∈ rest.map Booking.id := List.mem_map_of_mem Booking.id hb'
        rw [← heq] at hmm
        exact hmm
      · exact hupd' x hx'
    · intro aid
      rw [hocc' aid, har2, occOf_incOcc, expiredSpots_cons]
      by_cases haid : b.areaId = aid
      · rw [if_pos haid, if_pos haid]
        cases occOf s.areas aid with
        | none => simp
        | some v => simp; ring
      · rw [if_neg haid, if_neg haid]
        cases occOf s.areas aid <;> simp
    · rw [hpref', hpref2]
    · exact ⟨e2 ++ e', by rw [hext', hext2]; simp⟩
    · intro x hx sid hsid lv hlv p hp hpa hplv
      rcases List.mem_cons.mp hx with rfl | hx'
      · have h2 := hnot2 sid hsid lv hlv p hp hpa hplv
        rw [hext']
        exact List.mem_append_left _ h2
      · exact hnot' x hx' sid hsid lv hlv p (hpref2 ▸ hp) hpa hplv


theorem sweepList_abort (pre : List Booking) (bad : Booking) (post : List Booking)
    (s : AppState) (hndB : (s.bookings.map Booking.id).Nodup)
    (hmem : ∀ x ∈ pre ++ bad :: post, x ∈ s.bookings)
    (hLnd : ((pre ++ bad :: post).map Booking.id).Nodup)
    (hpre : ∀ x ∈ pre, ∀ sid ∈ x.slotIds, (levelOf sid).isSome)
    (hbad : ∃ sid ∈ bad.slotIds, levelOf sid = none) :
    ∃ s', sweepList s (pre ++ bad :: post) = .error s' ∧ ∀ x ∈ post, x ∈ s'.bookings := by
  induction pre generalizing s with
  | nil =>
    obtain ⟨s', herr⟩ := processSlots_error bad.areaId bad.slotIds
      { s with
        bookings := updateFirst (fun x => decide (x.id = bad.id))
          (fun x => { x with status := .cancelledNoShow,
                             refundAmount := some (bad.amount * (9 / 10)) }) s.bookings
        areas := incOcc s.areas bad.areaId (-(bad.spots : Int)) } hbad
    have hpb : processBooking s bad = .error s' := herr
    rw [List.nil_append] at hmem hLnd ⊢
    rw [List.map_cons, List.nodup_cons] at hLnd
    refine ⟨s', ?_, ?_⟩
    · simp only [sweepList, hpb]
    · intro x hx
      rw [(processBooking_fields s bad s' (Or.inr hpb)).1]
      refine mem_updateFirst_of_neg (hmem x (by simp [hx])) (decide_eq_false ?_)
      intro heq
      exact hLnd.1 (heq ▸ List.mem_map_of_mem Booking.id hx)
  | cons p pre' ih =>
    rw [List.cons_append] at hmem hLnd ⊢
    rw [List.map_cons, List.nodup_cons] at hLnd
    obtain ⟨hpnotin, hnd'⟩ := hLnd
    obtain ⟨s2, hrun2, hbk2, har2, -, -, -⟩ := processBooking_ok s p (hpre p (by simp))
    have hndB2 : (s2.bookings.map Booking.id).Nodup := by
      have hmap : (updateFirst (fun x => decide (x.id = p.id))
          (fun x => { x with status := BStatus.cancelledNoShow,
                             refundAmount := some (p.amount * (9 / 10)) })
          s.bookings).map Booking.id = s.bookings.map Booking.id :=
        map_updateFirst s.bookings fun _ => rfl
      rw [hbk2, hmap]
      exact hndB
    have hmem2 : ∀ x ∈ pre' ++ bad :: post, x ∈ s2.bookings := by
      intro x hx
      rw [hbk2]
      refine mem_updateFirst_of_neg (hmem x (by simp [hx])) (decide_eq_false ?_)
      intro heq
      exact hpnotin (heq ▸ List.mem_map_of_mem Booking.id hx)
    obtain ⟨s', herr', hpost'⟩ := ih s2 hndB2 hmem2 hnd' (fun x hx => hpre x (by simp [hx]))
    refine ⟨s', ?_, hpost'⟩
    simp only [sweepList, hrun2]
    exact herr'

/-! ### Lock-store helper lemmas -/

theorem lockKey_eq_true {areaId : Nat} {sid : SlotId} {l : SlotLock} :
    lockKey areaId sid l = true ↔ l.areaId = areaId ∧ l.slotNumber = sid := by
  simp [lockKey, Bool.and_eq_true, decide_eq_true_eq]

theorem mem_cleanup_locks {s : AppState} {now : Int} {l : SlotLock} :
    l ∈ (cleanup_locks s now).locks ↔ l ∈ s.locks ∧ ¬l.expiresAt < now := by
  simp [cleanup_locks, List.mem_filter]

theorem cleanup_keys_nodup {s : AppState} {now : Int}
    (h : (s.locks.map fun l => (l.areaId, l.slotNumber)).Nodup) :
    (((cleanup_locks s now).locks).map fun l => (l.areaId, l.slotNumber)).Nodup :=
  List.Nodup.sublist (List.Sublist.map _ (List.filter_sublist _)) h

/-! ### Rate and lock-conflict helper lemmas -/

/-- `Rat.floor` agrees with the floor of the `FloorRing` instance, so
`norm_num` can evaluate `round2` on concrete rationals. -/
theorem rat_floor_eq_intFloor (q : Rat) : q.floor = ⌊q⌋ := rfl

theorem bookingTotal_eq_sum (p : Rat) (d : Nat) (sids : List SlotId) :
    bookingTotal p d sids = (sids.map (fun sid => slotRate p sid * (d : Rat))).sum := by
  unfold bookingTotal
  rw [foldl_add_eq_sum]
  simp

theorem hourlyRate_eq_sum (p : Rat) (sids : List SlotId) :
    hourlyRate p sids = (sids.map (slotRate p)).sum := by
  unfold hourlyRate
  rw [foldl_add_eq_sum]
  simp

theorem slotRate_pos {p : Rat} (hp : 0 < p) (sid : SlotId) : 0 < slotRate p sid := by
  unfold slotRate
  split
  · exact mul_pos hp (by norm_num)
  · exact hp

theorem hourlyRate_pos {p : Rat} {sids : List SlotId} (hp : 0 < p) (hne : sids ≠ []) :
    0 < hourlyRate p sids := by
  cases sids with
  | nil => cases hne rfl
  | cons t rest =>
    rw [hourlyRate_eq_sum]
    simp only [List.map_cons, List.sum_cons]
    have h1 : 0 < slotRate p t := slotRate_pos hp t
    have h2 : 0 ≤ (rest.map (slotRate p)).sum := by
      apply List.sum_nonneg
      intro x hx
      obtain ⟨sid, -, rfl⟩ := List.mem_map.mp hx
      exact le_of_lt (slotRate_pos hp sid)
    linarith

theorem ceilHours_pos {sec : Int} (h : 0 < sec) : 1 ≤ ceilHours sec := by
  unfold ceilHours
  omega

theorem lockConflict?_cons_found {locks : List SlotLock} {areaId actorId : Nat}
    {t : SlotId} {rest : List SlotId} {l : SlotLock}
    (hfind : locks.find? (lockKey areaId t) = some l) :
    lockConflict? locks areaId actorId (t :: rest)
      = if l.userId ≠ actorId then some t else lockConflict? locks areaId actorId rest := by
  show (match locks.find? (lockKey areaId t) with
        | some l => if l.userId ≠ actorId then some t
                    else lockConflict? locks areaId actorId rest
        | none => lockConflict? locks areaId actorId rest) = _
  rw [hfind]

theorem lockConflict?_cons_none {locks : List SlotLock} {areaId actorId : Nat}
    {t : SlotId} {rest : List SlotId}
    (hfind : locks.find? (lockKey areaId t) = none) :
    lockConflict? locks areaId actorId (t :: rest)
      = lockConflict? locks areaId actorId rest := by
  show (match locks.find? (lockKey areaId t) with
        | some l => if l.userId ≠ actorId then some t
                    else lockConflict? locks areaId actorId rest
        | none => lockConflict? locks areaId actorId rest) = _
  rw [hfind]

theorem lockConflict?_eq_none_iff {locks : List SlotLock} {areaId actorId : Nat}
    {slots : List SlotId}
    (hkeys : (locks.map fun l => (l.areaId, l.slotNumber)).Nodup) :
    lockConflict? locks areaId actorId slots = none ↔
      ∀ sid ∈ slots, ∀ l ∈ locks, l.areaId = areaId → l.slotNumber = sid →
        l.userId = actorId := by
  induction slots with
  | nil => simp [lockConflict?]
  | cons t rest ih =>
    cases hfind : locks.find? (lockKey areaId t) with
    | some l =>
      have hlmem := List.mem_of_find?_eq_some hfind
      have hlkey := lockKey_eq_true.mp (List.find?_some hfind)
      by_cases huser : l.userId = actorId
      · rw [lockConflict?_cons_found hfind, if_neg (by simp [huser])]
        rw [ih]
        constructor
        · intro hrest
          intro sid hsid l' hl' ha hs
          rcases List.mem_cons.mp hsid with rfl | hsid'
          · have : l' = l := eq_of_nodup_key hkeys hl' hlmem
              (by simp [ha, hs, hlkey.1, hlkey.2])
            rw [this, huser]
          · exact hrest sid hsid' l' hl' ha hs
        · intro hall sid hsid l' hl' ha hs
          exact hall sid (by simp [hsid]) l' hl' ha hs
      · rw [lockConflict?_cons_found hfind, if_pos huser]
        constructor
        · intro h
          cases h
        · intro hall
          exact absurd (hall t (by simp) l hlmem hlkey.1 hlkey.2) huser
    | none =>
      rw [lockConflict?_cons_none hfind, ih]
      constructor
      · intro hrest sid hsid l' hl' ha hs
        rcases List.mem_cons.mp hsid with rfl | hsid'
        · exact absurd (lockKey_eq_true.mpr ⟨ha, hs⟩) (List.find?_eq_none.mp hfind l' hl')
        · exact hrest sid hsid' l' hl' ha hs
      · intro hall sid hsid l' hl' ha hs
        exact hall sid (by simp [hsid]) l' hl' ha hs

theorem book_spot_locked_iff {s : AppState} {actor : Actor} {areaId : Nat}
    {startTime : Int} {d : Nat} {slots : List SlotId} {nid : Nat} {area : ParkingArea}
    (hne : slots ≠ []) (hveh : actor.vehicleSet = true)
    (hfind : s.areas.find? (fun a => decide (a.id = areaId)) = some area)
    (hcol : s.bookings.any (collides areaId startTime (startTime + 3600 * (d : Int)) slots)
      = false) :
    (∃ sid, book_spot s actor (some areaId) (some (some startTime)) d slots nid
        = .error (.slotLocked sid))
      ↔ lockConflict? s.locks areaId actor.id slots ≠ none := by
  cases hlock : lockConflict? s.locks areaId actor.id slots with
  | some t =>
    constructor
    · rintro -
      simp
    · rintro -
      exact ⟨t, by simp [book_spot, hne, hveh, hfind, hcol, hlock]⟩
  | none =>
    rw [book_spot_ok_intro hne hveh hfind hcol hlock]
    constructor
    · rintro ⟨sid, h⟩
      simp at h
    · intro h
      exact absurd rfl h

/-! ## Claims -/

/-- C1 (amended): after any single lifecycle or sweeper operation settles on
a structurally sound, occupancy-consistent database — with ConfirmPayment not
replayed on a booking outside the live states — every area's `occupied`
equals the sum of `spots` over its bookings with status in
{Pending Payment, Confirmed, Active}, and `0 ≤ occupied` holds.  The original
upper bound `occupied ≤ capacity` is dropped: `book_spot` performs no
capacity check, see the counterexample. -/
theorem claim_C1_occupancy_invariant (s : AppState) (op : Op)
    (hwf : wellFormed s) (hc : occConsistent s) (hsafe : opSafe s op) :
    occConsistent (applyOp s op) ∧ ∀ a ∈ (applyOp s op).areas, 0 ≤ a.occupied := by
  obtain ⟨hndB, hndA, -⟩ := hwf
  have hmain := applyOp_occConsistent s op hndB hndA hc hsafe
  refine ⟨hmain, ?_⟩
  intro a ha
  rw [hmain a ha]
  exact liveSpots_nonneg _ _

/-- Witness for C1: a no-show sweep over a database with one expired
Confirmed booking keeps the occupancy invariant. -/
theorem claim_C1_occupancy_invariant_witness :
    wellFormed exC1s ∧ occConsistent exC1s ∧ opSafe exC1s (.sweep 1000 none) ∧
    (occConsistent (applyOp exC1s (.sweep 1000 none)) ∧
      ∀ a ∈ (applyOp exC1s (.sweep 1000 none)).areas, 0 ≤ a.occupied) :=
  ⟨by decide, by decide, by decide,
   claim_C1_occupancy_invariant exC1s (.sweep 1000 none) (by decide) (by decide)
     (by decide)⟩

/-- C1 counterexample: from a well-formed, occupancy-consistent database
whose single area has capacity 1 and occupancy 0, one `book_spot` request
for two slot identifiers succeeds and leaves `occupied = 2 > capacity = 1`,
so `occupied ≤ capacity` does not hold after every single operation. -/
theorem claim_C1_capacity_counterexample :
    wellFormed cexC1s ∧ occConsistent cexC1s ∧
    opSafe cexC1s (.create exActor (some 1) (some (some 0)) 1 [['A'], ['B']] 7) ∧
    ∃ a ∈ (applyOp cexC1s
        (.create exActor (some 1) (some (some 0)) 1 [['A'], ['B']] 7)).areas,
      (a.capacity : Int) < a.occupied := by
  decide

/-- C2 (amended): with the request well-formed and the area present, Create
fails with SlotCollision if and only if some stored booking with live status
in the same area shares a requested slot and overlaps the requested window
under the plain half-open rule `b.start < end ∧ start < b.end` on the stored
`end_time` — `book_spot` applies no `effectiveEnd = max(endTime, now)`
extension for Active bookings (see the counterexample).  Consequently a
successfully created booking overlaps no live booking that existed at
creation time on a shared slot. -/
theorem claim_C2_collision_rule (s : AppState) (actor : Actor) (areaId : Nat)
    (startTime : Int) (d : Nat) (slots : List SlotId) (nid : Nat) (area : ParkingArea)
    (hne : slots ≠ []) (hveh : actor.vehicleSet = true)
    (hfind : s.areas.find? (fun a => decide (a.id = areaId)) = some area) :
    (book_spot s actor (some areaId) (some (some startTime)) d slots nid
        = .error .slotCollision
      ↔ ∃ b ∈ s.bookings, b.areaId = areaId ∧ isLive b.status = true ∧
          b.startTime < startTime + 3600 * (d : Int) ∧ startTime < b.endTime ∧
          ∃ sid ∈ b.slotIds, sid ∈ slots)
    ∧ (∀ s' nb, book_spot s actor (some areaId) (some (some startTime)) d slots nid
          = .ok (s', nb) →
        ∀ b ∈ s.bookings, isLive b.status = true → b.areaId = nb.areaId →
          (∃ sid ∈ b.slotIds, sid ∈ nb.slotIds) →
          ¬(b.startTime < nb.endTime ∧ nb.startTime < b.endTime)) := by
  constructor
  · rw [book_spot_collision_iff hne hveh hfind]
    exact any_collides_iff
  · intro s' nb h
    exact book_spot_no_overlap h

/-- Witness for C2: a Confirmed booking on slot S over [0, 3600) collides
with a request for [1800, 5400) on the same slot. -/
theorem claim_C2_collision_rule_witness :
    ([['S']] ≠ ([] : List SlotId)) ∧ exActor.vehicleSet = true ∧
    exC2s.areas.find? (fun a => decide (a.id = 1)) = some ⟨1, 10, 1, 20⟩ ∧
    ((book_spot exC2s exActor (some 1) (some (some 1800)) 1 [['S']] 99
        = .error .slotCollision
      ↔ ∃ b ∈ exC2s.bookings, b.areaId = 1 ∧ isLive b.status = true ∧
          b.startTime < 1800 + 3600 * (1 : Int) ∧ 1800 < b.endTime ∧
          ∃ sid ∈ b.slotIds, sid ∈ [['S']])
    ∧ (∀ s' nb, book_spot exC2s exActor (some 1) (some (some 1800)) 1 [['S']] 99
          = .ok (s', nb) →
        ∀ b ∈ exC2s.bookings, isLive b.status = true → b.areaId = nb.areaId →
          (∃ sid ∈ b.slotIds, sid ∈ nb.slotIds) →
          ¬(b.startTime < nb.endTime ∧ nb.startTime < b.endTime))) :=
  ⟨by decide, by decide, by decide,
   claim_C2_collision_rule exC2s exActor 1 1800 1 [['S']] 99 ⟨1, 10, 1, 20⟩
     (by decide) (by decide) (by decide)⟩

/-- C2 counterexample: with an overstaying Active booking on slot S over
[0, 3600) and now = 9000, the spec's §4.2 rule with
`effectiveEnd = max(endTime, now)` flags a collision for the requested
window [7200, 10800), yet `book_spot` succeeds — its query uses the stored
`end_time` with no `now` extension, so the claimed rule is not the one the
code enforces. -/
theorem claim_C2_counterexample :
    specCollides 9000 1 7200 10800 [['S']] cexC2b = true ∧
    cexC2b ∈ cexC2s.bookings ∧
    bookOk (book_spot cexC2s exActor (some 1) (some (some 7200)) 1 [['S']] 99)
      = true := by
  decide

/-- C7: per `(area, slotNumber)` key (assuming the lock table keys are unique,
which every operation here preserves), `lock_slot` fails with LockHeld exactly
when an unexpired lock for that key held by a different user exists; otherwise
it creates or extends the caller's own lock with `expiresAt = now + 300`
(5 minutes), and afterwards at most one non-expired lock exists per key. -/
theorem claim_C7_lock_mutual_exclusion (s : AppState) (actorId areaId : Nat)
    (sid : SlotId) (now : Int)
    (hkeys : (s.locks.map fun l => (l.areaId, l.slotNumber)).Nodup) :
    ((lock_slot s actorId areaId sid now).1 = .lockHeld ↔
      ∃ l ∈ s.locks, l.areaId = areaId ∧ l.slotNumber = sid ∧ ¬l.expiresAt < now ∧
        l.userId ≠ actorId) ∧
    ((lock_slot s actorId areaId sid now).1 = .ok →
      ∃ l ∈ (lock_slot s actorId areaId sid now).2.locks,
        l.areaId = areaId ∧ l.slotNumber = sid ∧ l.userId = actorId ∧
        l.expiresAt = now + 300) ∧
    (∀ l1 ∈ (lock_slot s actorId areaId sid now).2.locks,
     ∀ l2 ∈ (lock_slot s actorId areaId sid now).2.locks,
       l1.areaId = l2.areaId → l1.slotNumber = l2.slotNumber →
       ¬l1.expiresAt < now → ¬l2.expiresAt < now → l1 = l2) := by
  have hk1 := @cleanup_keys_nodup s now hkeys
  have hkeyeq : ∀ l1 l2 : SlotLock, l1.areaId = l2.areaId → l1.slotNumber = l2.slotNumber →
      (fun l => (l.areaId, l.slotNumber)) l1 = (fun l => (l.areaId, l.slotNumber)) l2 := by
    intro l1 l2 h1 h2
    simp [h1, h2]
  cases hfind : (cleanup_locks s now).locks.find? (lockKey areaId sid) with
  | some l =>
    have heq : lock_slot s actorId areaId sid now =
        if l.userId ≠ actorId then (.lockHeld, cleanup_locks s now)
        else
          (.ok, { cleanup_locks s now with
                  locks := updateFirst (lockKey areaId sid)
                    (fun x => { x with userId := actorId, expiresAt := now + 300 })
                    (cleanup_locks s now).locks }) := by
      unfold lock_slot
      rw [hfind]
    have hlmem : l ∈ (cleanup_locks s now).locks := List.mem_of_find?_eq_some hfind
    have hlkey := lockKey_eq_true.mp (List.find?_some hfind)
    by_cases huser : l.userId = actorId
    · rw [heq, if_neg (by simp [huser])]
      refine ⟨?_, ?_, ?_⟩
      · constructor
        · intro h
          simp at h
        · rintro ⟨l', hl', hk1', hk2', hexp', huser'⟩
          exfalso
          have hl'mem : l' ∈ (cleanup_locks s now).locks :=
            mem_cleanup_locks.mpr ⟨hl', hexp'⟩
          have : l' = l := eq_of_nodup_key hk1 hl'mem hlmem
            (hkeyeq l' l (hk1'.trans hlkey.1.symm) (hk2'.trans hlkey.2.symm))
          exact huser' (this ▸ huser)
      · rintro -
        refine ⟨{ l with userId := actorId, expiresAt := now + 300 },
          updateFirst_mem_of_find? hfind, hlkey.1, hlkey.2, rfl, rfl⟩
      · intro l1 hl1 l2 hl2 h1 h2 he1 he2
        have hmap : (updateFirst (lockKey areaId sid)
            (fun x => { x with userId := actorId, expiresAt := now + 300 })
            (cleanup_locks s now).locks).map (fun l => (l.areaId, l.slotNumber))
            = ((cleanup_locks s now).locks).map (fun l => (l.areaId, l.slotNumber)) :=
          map_updateFirst _ fun _ => rfl
        have hnd2 : ((updateFirst (lockKey areaId sid)
            (fun x => { x with userId := actorId, expiresAt := now + 300 })
            (cleanup_locks s now).locks).map (fun l => (l.areaId, l.slotNumber))).Nodup := by
          rw [hmap]
          exact hk1
        exact eq_of_nodup_key hnd2 hl1 hl2 (hkeyeq l1 l2 h1 h2)
    · rw [heq, if_pos huser]
      refine ⟨?_, ?_, ?_⟩
      · constructor
        · rintro -
          exact ⟨l, (mem_cleanup_locks.mp hlmem).1, hlkey.1, hlkey.2,
            (mem_cleanup_locks.mp hlmem).2, huser⟩
        · rintro -
          rfl
      · intro h
        simp at h
      · intro l1 hl1 l2 hl2 h1 h2 he1 he2
        exact eq_of_nodup_key hk1 hl1 hl2 (hkeyeq l1 l2 h1 h2)
  | none =>
    have heq : lock_slot s actorId areaId sid now =
        (.ok, { cleanup_locks s now with
                locks := (cleanup_locks s now).locks
                  ++ [(⟨areaId, sid, actorId, now + 300⟩ : SlotLock)] }) := by
      unfold lock_slot
      rw [hfind]
    rw [heq]
    refine ⟨?_, ?_, ?_⟩
    · constructor
      · intro h
        simp at h
      · rintro ⟨l', hl', hk1', hk2', hexp', huser'⟩
        exfalso
        have hl'mem : l' ∈ (cleanup_locks s now).locks :=
          mem_cleanup_locks.mpr ⟨hl', hexp'⟩
        have := List.find?_eq_none.mp hfind l' hl'mem
        exact this (lockKey_eq_true.mpr ⟨hk1', hk2'⟩)
    · rintro -
      exact ⟨(⟨areaId, sid, actorId, now + 300⟩ : SlotLock),
        List.mem_append_right _ (List.mem_singleton_self _), rfl, rfl, rfl, rfl⟩
    · intro l1 hl1 l2 hl2 h1 h2 he1 he2
      have hnotin : (areaId, sid) ∉
          ((cleanup_locks s now).locks).map (fun l => (l.areaId, l.slotNumber)) := by
        intro hmem
        obtain ⟨l', hl', heq'⟩ := List.mem_map.mp hmem
        have := List.find?_eq_none.mp hfind l' hl'
        apply this
        apply lockKey_eq_true.mpr
        have heq1 : l'.areaId = areaId := congrArg Prod.fst heq'
        have heq2 : l'.slotNumber = sid := congrArg Prod.snd heq'
        exact ⟨heq1, heq2⟩
      have hnd2 : ((((cleanup_locks s now).locks)
          ++ [(⟨areaId, sid, actorId, now + 300⟩ : SlotLock)]).map
          (fun l => (l.areaId, l.slotNumber))).Nodup := by
        rw [List.map_append]
        simp only [List.map_cons, List.map_nil]
        rw [List.nodup_append]
        refine ⟨hk1, List.nodup_singleton _, ?_⟩
        intro x hx
        simp only [List.mem_singleton]
        intro hxeq
        exact hnotin (hxeq ▸ hx)
      exact eq_of_nodup_key hnd2 hl1 hl2 (hkeyeq l1 l2 h1 h2)

/-- Witness for C7: with a live lock on slot S held by user 9 expiring at
100, an acquire by user 5 at now = 50 hits the LockHeld case. -/
theorem claim_C7_lock_mutual_exclusion_witness :
    ((exC7s.locks.map fun l => (l.areaId, l.slotNumber)).Nodup) ∧
    (((lock_slot exC7s 5 1 ['S'] 50).1 = .lockHeld ↔
      ∃ l ∈ exC7s.locks, l.areaId = 1 ∧ l.slotNumber = ['S'] ∧
        ¬l.expiresAt < 50 ∧ l.userId ≠ 5) ∧
    ((lock_slot exC7s 5 1 ['S'] 50).1 = .ok →
      ∃ l ∈ (lock_slot exC7s 5 1 ['S'] 50).2.locks,
        l.areaId = 1 ∧ l.slotNumber = ['S'] ∧ l.userId = 5 ∧
        l.expiresAt = 50 + 300) ∧
    (∀ l1 ∈ (lock_slot exC7s 5 1 ['S'] 50).2.locks,
     ∀ l2 ∈ (lock_slot exC7s 5 1 ['S'] 50).2.locks,
       l1.areaId = l2.areaId → l1.slotNumber = l2.slotNumber →
       ¬l1.expiresAt < 50 → ¬l2.expiresAt < 50 → l1 = l2)) :=
  ⟨by decide, claim_C7_lock_mutual_exclusion exC7s 5 1 ['S'] 50 (by decide)⟩

/-- C3 (amended): `pay_booking` fails (leaves the database unchanged) exactly
when no booking with the given id is owned by the caller — the match filter
carries no status condition, contrary to the spec's "Pending/owned".  When an
owned booking exists (booking ids unique), it transitions to Confirmed
whatever its current status, and the confirmation notification is emitted;
the spec's "never changes the status of an owned booking that is not in
Pending Payment" is refuted by the counterexample. -/
theorem claim_C3_pay_owned_filter (s : AppState) (u bid : Nat)
    (hnd : (s.bookings.map Booking.id).Nodup) :
    ((∀ b ∈ s.bookings, ¬(b.id = bid ∧ b.userId = u)) → pay_booking s u bid = s) ∧
    (∀ b ∈ s.bookings, b.id = bid → b.userId = u →
      { b with status := BStatus.confirmed } ∈ (pay_booking s u bid).bookings ∧
      (pay_booking s u bid).notifications
        = s.notifications ++ [⟨u, .bookingConfirmed b.areaId⟩]) := by
  constructor
  · intro hnone
    apply pay_booking_eq_none
    apply List.find?_eq_none.mpr
    intro x hx hpx
    have hpx2 : x.id = bid ∧ x.userId = u := by
      simpa [ownedPred, Bool.and_eq_true, decide_eq_true_eq] using hpx
    exact hnone x hx hpx2
  · intro b hb hid huser
    have hpb : ownedPred u bid b = true := by
      simp [ownedPred, hid, huser]
    have hfind : s.bookings.find? (ownedPred u bid) = some b := by
      apply find?_eq_of_unique hb hpb
      intro y hy hpy
      have hy2 : y.id = bid ∧ y.userId = u := by
        simpa [ownedPred, Bool.and_eq_true, decide_eq_true_eq] using hpy
      exact eq_of_nodup_key hnd hy hb (by rw [hy2.1, hid])
    rw [pay_booking_eq_some hfind]
    exact ⟨updateFirst_mem_of_find? hfind, rfl⟩

/-- Witness for C3: a Pending Payment booking (id 42) owned by user 7 is
confirmed by `pay_booking`. -/
theorem claim_C3_pay_owned_filter_witness :
    ((exC3s.bookings.map Booking.id).Nodup) ∧
    (((∀ b ∈ exC3s.bookings, ¬(b.id = 42 ∧ b.userId = 7)) →
        pay_booking exC3s 7 42 = exC3s) ∧
    (∀ b ∈ exC3s.bookings, b.id = 42 → b.userId = 7 →
      { b with status := BStatus.confirmed } ∈ (pay_booking exC3s 7 42).bookings ∧
      (pay_booking exC3s 7 42).notifications
        = exC3s.notifications ++ [⟨7, .bookingConfirmed b.areaId⟩])) :=
  ⟨by decide, claim_C3_pay_owned_filter exC3s 7 42 (by decide)⟩

/-- C3 counterexample: booking 42 owned by user 7 is Completed, yet
`pay_booking` flips its status to Confirmed — the claimed "never changes the
status of an owned booking that is not in Pending Payment" fails. -/
theorem claim_C3_counterexample :
    cexC3b ∈ cexC3s.bookings ∧ cexC3b.status = .completed ∧
    cexC3b.id = 42 ∧ cexC3b.userId = 7 ∧
    ∀ b ∈ (pay_booking cexC3s 7 42).bookings, b.status = .confirmed := by
  decide

/-- C5: every successful Create prices the booking at
`round2(discount × Σ slotRate(price, sid) × duration)` over the selected
slots, where `slotRate` bills `B-` slots at half the area base price and
everything else at the base price, and staff (admin or area manager) pay a
quarter; the booking is created in Pending Payment. -/
theorem claim_C5_pricing (s : AppState) (actor : Actor) (aid? : Option Nat)
    (sraw : Option (Option Int)) (d : Nat) (slots : List SlotId) (nid : Nat)
    (s' : AppState) (nb : Booking)
    (h : book_spot s actor aid? sraw d slots nid = .ok (s', nb)) :
    slots ≠ [] ∧ nb.status = .pendingPayment ∧
    ∃ areaId area, aid? = some areaId ∧
      s.areas.find? (fun a => decide (a.id = areaId)) = some area ∧
      nb.amount = round2
        ((if actor.isAdmin || actor.managedAreaId.isSome then (1 / 4 : Rat) else 1)
          * (slots.map fun sid => slotRate area.price sid * (d : Rat)).sum) := by
  obtain ⟨areaId, startTime, area, haid, -, hne, -, hfind, -, -, hnb, -⟩ := book_spot_ok_elim h
  subst hnb
  refine ⟨hne, rfl, areaId, area, haid, hfind, ?_⟩
  rw [mkBooking_amount, bookingTotal_eq_sum]
  cases hstaff : actor.isAdmin || actor.managedAreaId.isSome with
  | true => rw [if_pos rfl, if_pos rfl, mul_comm]
  | false => rw [if_neg (by simp), if_neg (by simp), one_mul]

/-- Witness for C5: base price 20, duration 2 h; the car slot `C-01` books
for 40 and the bike slot `B-01` for 20, both priced by the claimed formula
and in Pending Payment. -/
theorem claim_C5_pricing_witness :
    (book_spot exC5s exActor (some 1) (some (some 0)) 2 [['C', '-', '0', '1']] 1
      = .ok (bookedState exC5s exActor 1 ⟨1, 10, 0, 20⟩
               (mkBooking exActor 1 0 2 [['C', '-', '0', '1']] 1 20),
             mkBooking exActor 1 0 2 [['C', '-', '0', '1']] 1 20)) ∧
    (([['C', '-', '0', '1']] : List SlotId) ≠ [] ∧
     (mkBooking exActor 1 0 2 [['C', '-', '0', '1']] 1 20).status = .pendingPayment ∧
     ∃ areaId area, (some 1 : Option Nat) = some areaId ∧
       exC5s.areas.find? (fun a => decide (a.id = areaId)) = some area ∧
       (mkBooking exActor 1 0 2 [['C', '-', '0', '1']] 1 20).amount = round2
         ((if exActor.isAdmin || exActor.managedAreaId.isSome then (1 / 4 : Rat) else 1)
           * (([['C', '-', '0', '1']] : List SlotId).map
               fun sid => slotRate area.price sid * ((2 : Nat) : Rat)).sum)) ∧
    (mkBooking exActor 1 0 2 [['C', '-', '0', '1']] 1 20).amount = 40 ∧
    (mkBooking exActor 1 0 2 [['B', '-', '0', '1']] 2 20).amount = 20 :=
  ⟨rfl,
   claim_C5_pricing exC5s exActor (some 1) (some (some 0)) 2 [['C', '-', '0', '1']] 1
     (bookedState exC5s exActor 1 ⟨1, 10, 0, 20⟩
       (mkBooking exActor 1 0 2 [['C', '-', '0', '1']] 1 20))
     (mkBooking exActor 1 0 2 [['C', '-', '0', '1']] 1 20) rfl,
   by
     rw [mkBooking_amount, if_neg (by decide), bookingTotal_eq_sum]
     have hsr : slotRate 20 ['C', '-', '0', '1'] = 20 := by
       unfold slotRate
       rw [if_neg (by decide)]
     simp only [List.map_cons, List.map_nil, List.sum_cons, List.sum_nil, hsr]
     norm_num [round2, rat_floor_eq_intFloor],
   by
     rw [mkBooking_amount, if_neg (by decide), bookingTotal_eq_sum]
     have hsr : slotRate 20 ['B', '-', '0', '1'] = 20 * (1 / 2) := by
       unfold slotRate
       rw [if_pos (by decide)]
     simp only [List.map_cons, List.map_nil, List.sum_cons, List.sum_nil, hsr]
     norm_num [round2, rat_floor_eq_intFloor]⟩

/-- C6: checking out a located Active booking past its end time (booking ids
unique, area present with positive price, at least one slot) updates the
stored booking to Completed with the check-out stamp, the overstay flag, the
overdue-hour count `ceilHours(now − endTime)` and a penalty of
`ceilHours(now − endTime) × hourlyRate × 2` added to `amount`; the area's
occupancy drops by the booking's spot count and the exit notification is
emitted. -/
theorem claim_C6_checkout_overstay (s : AppState) (bid : Nat) (now : Int)
    (b : Booking) (area : ParkingArea)
    (hnd : (s.bookings.map Booking.id).Nodup)
    (hb : b ∈ s.bookings) (hid : b.id = bid)
    (hact : b.status = .active) (hover : b.endTime < now)
    (hfind : s.areas.find? (fun a => decide (a.id = b.areaId)) = some area)
    (hp : 0 < area.price) (hsl : b.slotIds ≠ []) :
    { b with status := .completed, checkOutTime := some now,
             penaltyApplied := true, overdueHours := ceilHours (now - b.endTime),
             amount := b.amount + (ceilHours (now - b.endTime) : Rat)
               * hourlyRate area.price b.slotIds * 2 }
      ∈ (verify_checkout s bid now).bookings ∧
    occOf (verify_checkout s bid now).areas b.areaId
      = (occOf s.areas b.areaId).map (fun v => v - (b.spots : Int)) ∧
    (verify_checkout s bid now).notifications
      = s.notifications ++ [⟨b.userId, .exitConfirmed b.areaId⟩] := by
  have hfb : s.bookings.find? (fun x => decide (x.id = bid)) = some b := by
    apply find?_eq_of_unique hb (by simp [hid])
    intro y hy hpy
    exact eq_of_nodup_key hnd hy hb (by rw [of_decide_eq_true hpy, hid])
  have heq : verify_checkout s bid now = checkoutFound s b now := by
    unfold verify_checkout
    rw [hfb]
  have heq2 : checkoutFound s b now
      = finishCheckout s b now
          ((ceilHours (now - b.endTime) : Rat) * hourlyRate area.price b.slotIds * 2)
          (ceilHours (now - b.endTime)) := by
    unfold checkoutFound
    rw [if_pos hact, if_pos hover, hfind]
  have hpen : 0 < (ceilHours (now - b.endTime) : Rat)
      * hourlyRate area.price b.slotIds * 2 := by
    have hc1 : 1 ≤ ceilHours (now - b.endTime) := ceilHours_pos (by omega)
    have hc2 : 0 < ((ceilHours (now - b.endTime) : Nat) : Rat) := by
      exact_mod_cast Nat.lt_of_lt_of_le Nat.zero_lt_one hc1
    exact mul_pos (mul_pos hc2 (hourlyRate_pos hp hsl)) two_pos
  have hfb2 : s.bookings.find? (fun x => decide (x.id = b.id)) = some b := by
    apply find?_eq_of_unique hb (by simp)
    intro y hy hpy
    exact eq_of_nodup_key hnd hy hb (of_decide_eq_true hpy)
  have hupd : checkoutUpdate now
      ((ceilHours (now - b.endTime) : Rat) * hourlyRate area.price b.slotIds * 2)
      (ceilHours (now - b.endTime)) b
      = { b with status := .completed, checkOutTime := some now,
                 penaltyApplied := true, overdueHours := ceilHours (now - b.endTime),
                 amount := b.amount + (ceilHours (now - b.endTime) : Rat)
                   * hourlyRate area.price b.slotIds * 2 } := by
    unfold checkoutUpdate
    rw [if_pos hpen]
  rw [heq, heq2]
  refine ⟨?_, ?_, rfl⟩
  · show _ ∈ updateFirst (fun x => decide (x.id = b.id))
      (checkoutUpdate now
        ((ceilHours (now - b.endTime) : Rat) * hourlyRate area.price b.slotIds * 2)
        (ceilHours (now - b.endTime))) s.bookings
    rw [← hupd]
    exact updateFirst_mem_of_find? hfb2
  · show occOf (incOcc s.areas b.areaId (-(b.spots : Int))) b.areaId = _
    rw [occOf_incOcc, if_pos rfl]
    simp [sub_eq_add_neg]

/-- Witness for C6: Active booking 9 (amount 40, one car slot, end time
3600) checked out at 9000 in an area with base price 20: overdue 5400 s
rounds up to 2 h, penalty 2 × 20 × 2 = 80, amount 120. -/
theorem claim_C6_checkout_overstay_witness :
    ((exC6s.bookings.map Booking.id).Nodup ∧ exC6b ∈ exC6s.bookings ∧
     exC6b.id = 9 ∧ exC6b.status = .active ∧ exC6b.endTime < 9000 ∧
     exC6s.areas.find? (fun a => decide (a.id = exC6b.areaId))
       = some (⟨1, 10, 1, 20⟩ : ParkingArea) ∧
     0 < (⟨1, 10, 1, 20⟩ : ParkingArea).price ∧ exC6b.slotIds ≠ []) ∧
    ({ exC6b with status := .completed, checkOutTime := some 9000,
                  penaltyApplied := true, overdueHours := ceilHours (9000 - exC6b.endTime),
                  amount := exC6b.amount + (ceilHours (9000 - exC6b.endTime) : Rat)
                    * hourlyRate (⟨1, 10, 1, 20⟩ : ParkingArea).price exC6b.slotIds * 2 }
       ∈ (verify_checkout exC6s 9 9000).bookings ∧
     occOf (verify_checkout exC6s 9 9000).areas exC6b.areaId
       = (occOf exC6s.areas exC6b.areaId).map (fun v => v - (exC6b.spots : Int)) ∧
     (verify_checkout exC6s 9 9000).notifications
       = exC6s.notifications ++ [⟨exC6b.userId, .exitConfirmed exC6b.areaId⟩]) ∧
    ceilHours (9000 - exC6b.endTime) = 2 ∧
    exC6b.amount + (ceilHours (9000 - exC6b.endTime) : Rat)
      * hourlyRate (⟨1, 10, 1, 20⟩ : ParkingArea).price exC6b.slotIds * 2 = 120 :=
  ⟨⟨by decide, by decide, by decide, by decide, by decide, by decide,
    by norm_num, by decide⟩,
   claim_C6_checkout_overstay exC6s 9 9000 exC6b ⟨1, 10, 1, 20⟩ (by decide) (by decide)
     (by decide) (by decide) (by decide) (by decide) (by norm_num) (by decide),
   by decide,
   by
     have hc : ceilHours (9000 - exC6b.endTime) = 2 := by decide
     rw [hc]
     show (40 : Rat) + ((2 : Nat) : Rat) * hourlyRate (20 : Rat) [['C', '-', '0', '1']] * 2
       = 120
     rw [hourlyRate_eq_sum]
     have hsr : slotRate (20 : Rat) ['C', '-', '0', '1'] = 20 := by
       unfold slotRate
       rw [if_neg (by decide)]
     simp only [List.map_cons, List.map_nil, List.sum_cons, List.sum_nil, hsr]
     norm_num⟩

/-- C8 (amended): with the earlier guards passed and lock keys unique,
Create fails with SlotLocked if and only if some requested slot carries a
stored lock owned by a different user — whatever its `expiresAt`.  The lock
loop of `book_spot` reads the raw `slot_locks` collection with no expiry
filter and no cleanup call (it takes no clock at all), so the spec's "a lock
whose expiresAt < now never causes Create to fail" is refuted by the
counterexample. -/
theorem claim_C8_lock_expiry_ignored (s : AppState) (actor : Actor) (areaId : Nat)
    (startTime : Int) (d : Nat) (slots : List SlotId) (nid : Nat) (area : ParkingArea)
    (hne : slots ≠ []) (hveh : actor.vehicleSet = true)
    (hfind : s.areas.find? (fun a => decide (a.id = areaId)) = some area)
    (hcol : s.bookings.any (collides areaId startTime (startTime + 3600 * (d : Int)) slots)
      = false)
    (hkeys : (s.locks.map fun l => (l.areaId, l.slotNumber)).Nodup) :
    (∃ sid, book_spot s actor (some areaId) (some (some startTime)) d slots nid
        = .error (.slotLocked sid))
      ↔ ∃ sid ∈ slots, ∃ l ∈ s.locks, l.areaId = areaId ∧ l.slotNumber = sid ∧
          l.userId ≠ actor.id := by
  rw [book_spot_locked_iff hne hveh hfind hcol, Ne, lockConflict?_eq_none_iff hkeys]
  push_neg
  rfl

/-- Witness for C8: a live foreign lock on the requested slot S makes the
booking fail with SlotLocked. -/
theorem claim_C8_lock_expiry_ignored_witness :
    (([['S']] : List SlotId) ≠ [] ∧ exActor.vehicleSet = true ∧
     exC8s.areas.find? (fun a => decide (a.id = 1)) = some (⟨1, 10, 0, 20⟩ : ParkingArea) ∧
     exC8s.bookings.any (collides 1 0 (0 + 3600 * ((1 : Nat) : Int)) [['S']]) = false ∧
     ((exC8s.locks.map fun l => (l.areaId, l.slotNumber)).Nodup)) ∧
    ((∃ sid, book_spot exC8s exActor (some 1) (some (some 0)) 1 [['S']] 99
        = .error (.slotLocked sid))
      ↔ ∃ sid ∈ [['S']], ∃ l ∈ exC8s.locks, l.areaId = 1 ∧ l.slotNumber = sid ∧
          l.userId ≠ exActor.id) :=
  ⟨⟨by decide, by decide, by decide, by decide, by decide⟩,
   claim_C8_lock_expiry_ignored exC8s exActor 1 0 1 [['S']] 99 ⟨1, 10, 0, 20⟩
     (by decide) (by decide) (by decide) (by decide) (by decide)⟩

/-- C8 counterexample: user 9's lock on slot S expired at time 5 — at any
later instant `cleanup_locks` would purge it — yet `book_spot` for the
window starting at 7200 still fails with SlotLocked, so an expired lock is
not treated as absent by Create. -/
theorem claim_C8_counterexample :
    (∃ l ∈ cexC8s.locks, l.expiresAt = 5 ∧ l.userId ≠ exActor.id) ∧
    (cleanup_locks cexC8s 7200).locks = [] ∧
    book_spot cexC8s exActor (some 1) (some (some 7200)) 1 [['S']] 99
      = .error (.slotLocked ['S']) :=
  ⟨by decide, by decide, rfl⟩

/-- C10: `book_spot` never consults the `slots` collection — the outcome is
identical for every stored slot list — so a request for any non-empty list
of arbitrary identifiers that passes the collision and lock checks creates
the booking verbatim: those strings become `slot_ids`, `occupied` is set to
the read value plus their count (with no bound from the stored slots or
capacity), and the price of each string depends only on whether it starts
with `B-`. -/
theorem claim_C10_no_slot_validation (s : AppState) (actor : Actor) (areaId : Nat)
    (startTime : Int) (d : Nat) (slots : List SlotId) (nid : Nat) (area : ParkingArea)
    (hne : slots ≠ []) (hveh : actor.vehicleSet = true)
    (hfind : s.areas.find? (fun a => decide (a.id = areaId)) = some area)
    (hcol : s.bookings.any (collides areaId startTime (startTime + 3600 * (d : Int)) slots)
      = false)
    (hlock : lockConflict? s.locks areaId actor.id slots = none) :
    (∀ L : List Slot,
      book_spot { s with slots := L } actor (some areaId) (some (some startTime)) d slots nid
        = .ok (bookedState { s with slots := L } actor areaId area
                 (mkBooking actor areaId startTime d slots nid area.price),
               mkBooking actor areaId startTime d slots nid area.price)) ∧
    (mkBooking actor areaId startTime d slots nid area.price).slotIds = slots ∧
    (mkBooking actor areaId startTime d slots nid area.price).spots = slots.length ∧
    occOf (bookedState s actor areaId area
            (mkBooking actor areaId startTime d slots nid area.price)).areas areaId
      = some (area.occupied + (slots.length : Int)) ∧
    (mkBooking actor areaId startTime d slots nid area.price).amount = round2
      ((if actor.isAdmin || actor.managedAreaId.isSome then (1 / 4 : Rat) else 1)
        * (slots.map fun sid =>
            (if startsWithB sid then area.price * (1 / 2) else area.price) * (d : Rat)).sum) := by
  refine ⟨?_, rfl, rfl, ?_, ?_⟩
  · intro L
    exact book_spot_ok_intro hne hveh hfind hcol hlock
  · show occOf (setOcc s.areas areaId
      (area.occupied
        + ((mkBooking actor areaId startTime d slots nid area.price).slotIds.length : Int)))
      areaId = _
    rw [mkBooking_slotIds, setOcc_eq_incOcc (slots.length : Int) hfind, occOf_incOcc,
      if_pos rfl]
    unfold occOf
    rw [hfind]
    rfl
  · show (mkBooking actor areaId startTime d slots nid area.price).amount = round2
      ((if actor.isAdmin || actor.managedAreaId.isSome then (1 / 4 : Rat) else 1)
        * (slots.map fun sid => slotRate area.price sid * (d : Rat)).sum)
    rw [mkBooking_amount, bookingTotal_eq_sum]
    cases hstaff : actor.isAdmin || actor.managedAreaId.isSome with
    | true => rw [if_pos rfl, if_pos rfl, mul_comm]
    | false => rw [if_neg (by simp), if_neg (by simp), one_mul]

/-- Witness for C10: the area stores one real slot `C-01` and has capacity
1, yet booking the three made-up identifiers X, Y, Z succeeds and sets
`occupied` to 3. -/
theorem claim_C10_no_slot_validation_witness :
    (([['X'], ['Y'], ['Z']] : List SlotId) ≠ [] ∧ exActor.vehicleSet = true ∧
     exC10s.areas.find? (fun a => decide (a.id = 1)) = some (⟨1, 1, 0, 20⟩ : ParkingArea) ∧
     exC10s.bookings.any (collides 1 0 (0 + 3600 * ((1 : Nat) : Int)) [['X'], ['Y'], ['Z']])
       = false ∧
     lockConflict? exC10s.locks 1 exActor.id [['X'], ['Y'], ['Z']] = none) ∧
    ((∀ L : List Slot,
      book_spot { exC10s with slots := L } exActor (some 1) (some (some 0)) 1
          [['X'], ['Y'], ['Z']] 77
        = .ok (bookedState { exC10s with slots := L } exActor 1 ⟨1, 1, 0, 20⟩
                 (mkBooking exActor 1 0 1 [['X'], ['Y'], ['Z']] 77
                   (⟨1, 1, 0, 20⟩ : ParkingArea).price),
               mkBooking exActor 1 0 1 [['X'], ['Y'], ['Z']] 77
                 (⟨1, 1, 0, 20⟩ : ParkingArea).price)) ∧
     (mkBooking exActor 1 0 1 [['X'], ['Y'], ['Z']] 77
       (⟨1, 1, 0, 20⟩ : ParkingArea).price).slotIds = [['X'], ['Y'], ['Z']] ∧
     (mkBooking exActor 1 0 1 [['X'], ['Y'], ['Z']] 77
       (⟨1, 1, 0, 20⟩ : ParkingArea).price).spots = ([['X'], ['Y'], ['Z']] : List SlotId).length ∧
     occOf (bookedState exC10s exActor 1 ⟨1, 1, 0, 20⟩
             (mkBooking exActor 1 0 1 [['X'], ['Y'], ['Z']] 77
               (⟨1, 1, 0, 20⟩ : ParkingArea).price)).areas 1
       = some ((⟨1, 1, 0, 20⟩ : ParkingArea).occupied
           + (([['X'], ['Y'], ['Z']] : List SlotId).length : Int)) ∧
     (mkBooking exActor 1 0 1 [['X'], ['Y'], ['Z']] 77
       (⟨1, 1, 0, 20⟩ : ParkingArea).price).amount = round2
       ((if exActor.isAdmin || exActor.managedAreaId.isSome then (1 / 4 : Rat) else 1)
         * (([['X'], ['Y'], ['Z']] : List SlotId).map fun sid =>
             (if startsWithB sid then (⟨1, 1, 0, 20⟩ : ParkingArea).price * (1 / 2)
              else (⟨1, 1, 0, 20⟩ : ParkingArea).price) * ((1 : Nat) : Rat)).sum)) ∧
    (exC10s.slots.map Slot.slotNumber = [['C', '-', '0', '1']] ∧
     ∀ a ∈ exC10s.areas, a.capacity = 1) :=
  ⟨⟨by decide, by decide, by decide, by decide, by decide⟩,
   claim_C10_no_slot_validation exC10s exActor 1 0 1 [['X'], ['Y'], ['Z']] 77 ⟨1, 1, 0, 20⟩
     (by decide) (by decide) (by decide) (by decide) (by decide),
   by decide, by decide⟩

/-- C4 (amended): a run of the no-show sweep in which every expired
booking's slot identifiers parse completes, and then every booking with
status Confirmed and `grace_period_end < now` (matching the optional area
filter) is stored as Cancelled (No Show) with refund
`amount × 0.90` UNROUNDED — the code never applies the 2-decimal rounding
here, see the counterexample — each affected area's occupancy drops by the
expired spots, and every user with a slot preference matching a released
slot's area and level is notified.  (Runs with an unparsable slot
identifier abort instead: claim C9.) -/
theorem claim_C4_no_show_sweep (s : AppState) (now : Int) (af : Option Nat)
    (hndB : (s.bookings.map Booking.id).Nodup)
    (hparse : ∀ x ∈ s.bookings.filter (expiredFilter now af),
      ∀ sid ∈ x.slotIds, (levelOf sid).isSome) :
    ∃ s', check_no_shows s now af = .ok s' ∧
      (∀ b ∈ s.bookings, b.status = .confirmed → b.gracePeriodEnd < now →
        (af = none ∨ af = some b.areaId) →
        { b with status := .cancelledNoShow,
                 refundAmount := some (b.amount * (9 / 10)) } ∈ s'.bookings) ∧
      (∀ aid, occOf s'.areas aid
        = (occOf s.areas aid).map
            (fun v => v - expiredSpots (s.bookings.filter (expiredFilter now af)) aid)) ∧
      (∀ b ∈ s.bookings.filter (expiredFilter now af), ∀ sid ∈ b.slotIds, ∀ lv,
        levelOf sid = some lv → ∀ p ∈ s.preferences, p.areaId = b.areaId → p.level = lv →
          (⟨p.userId, NotifKind.slotFreed b.areaId lv⟩ : Notification)
            ∈ s'.notifications) := by
  have hsub : (s.bookings.filter (expiredFilter now af)).Sublist s.bookings :=
    List.filter_sublist _
  have hmem : ∀ x ∈ s.bookings.filter (expiredFilter now af), x ∈ s.bookings :=
    fun x hx => List.mem_of_mem_filter hx
  have hLnd : ((s.bookings.filter (expiredFilter now af)).map Booking.id).Nodup :=
    (List.Sublist.map Booking.id hsub).nodup hndB
  obtain ⟨s', hrun, hupd, hocc, -, -, hnot⟩ :=
    sweepList_ok_spec (s.bookings.filter (expiredFilter now af)) s hndB hmem hLnd hparse
  refine ⟨s', hrun, ?_, hocc, hnot⟩
  intro b hb hst hgrace haf
  have hfb : expiredFilter now af b = true := by
    unfold expiredFilter
    rcases haf with rfl | rfl
    · simp [hst, hgrace]
    · simp [hst, hgrace]
  exact hupd b (List.mem_filter.mpr ⟨hb, hfb⟩)

/-- Witness for C4: one expired Confirmed booking on slot `L1-C1` (amount
10) in an area watched by user 7's level-1 preference: the sweep succeeds,
cancels it with refund `10 × 9/10`, drops the occupancy and notifies
user 7. -/
theorem claim_C4_no_show_sweep_witness :
    ((exC4s.bookings.map Booking.id).Nodup ∧
     (∀ x ∈ exC4s.bookings.filter (expiredFilter 1000 none),
       ∀ sid ∈ x.slotIds, (levelOf sid).isSome)) ∧
    (∃ s', check_no_shows exC4s 1000 none = .ok s' ∧
      (∀ b ∈ exC4s.bookings, b.status = .confirmed → b.gracePeriodEnd < 1000 →
        ((none : Option Nat) = none ∨ (none : Option Nat) = some b.areaId) →
        { b with status := .cancelledNoShow,
                 refundAmount := some (b.amount * (9 / 10)) } ∈ s'.bookings) ∧
      (∀ aid, occOf s'.areas aid
        = (occOf exC4s.areas aid).map
            (fun v => v - expiredSpots (exC4s.bookings.filter (expiredFilter 1000 none)) aid)) ∧
      (∀ b ∈ exC4s.bookings.filter (expiredFilter 1000 none), ∀ sid ∈ b.slotIds, ∀ lv,
        levelOf sid = some lv → ∀ p ∈ exC4s.preferences, p.areaId = b.areaId → p.level = lv →
          (⟨p.userId, NotifKind.slotFreed b.areaId lv⟩ : Notification)
            ∈ s'.notifications)) :=
  ⟨⟨by decide, by decide⟩,
   claim_C4_no_show_sweep exC4s 1000 none (by decide) (by decide)⟩

/-- C4 counterexample: booking 42 is expired and Confirmed with amount
4.13; the sweep stores refund `4.13 × 9/10 = 3.717`, which is not the
2-decimal rounding 3.72 the spec prescribes at the point of computation. -/
theorem claim_C4_counterexample :
    cexC4b ∈ cexC4s.bookings ∧ cexC4b.status = .confirmed ∧
    cexC4b.gracePeriodEnd < 1000 ∧ cexC4b.amount = 413 / 100 ∧
    refundOf (check_no_shows cexC4s 1000 none) 42 = some (some (413 / 100 * (9 / 10))) ∧
    (413 / 100 * (9 / 10) : Rat) ≠ round2 (413 / 100 * (9 / 10)) :=
  ⟨List.mem_singleton_self _, rfl, by decide, rfl, rfl,
   by norm_num [round2, rat_floor_eq_intFloor]⟩

/-- C9: the level extraction `int(slot_id.split('-')[0].replace('L',''))`
fails on every identifier whose first segment is `B` (the seeded bike form
`B-NN`), and a sweep hitting such a booking aborts: the expired bookings
after it in the snapshot are left untouched in the database. -/
theorem claim_C9_sweep_aborts_on_bike (s : AppState) (now : Int) (af : Option Nat)
    (pre post : List Booking) (bad : Booking)
    (hndB : (s.bookings.map Booking.id).Nodup)
    (hfilter : s.bookings.filter (expiredFilter now af) = pre ++ bad :: post)
    (hpre : ∀ x ∈ pre, ∀ sid ∈ x.slotIds, (levelOf sid).isSome)
    (hbad : ∃ sid ∈ bad.slotIds, levelOf sid = none) :
    (∀ rest : List Char, levelOf ('B' :: '-' :: rest) = none) ∧
    ∃ s', check_no_shows s now af = .error s' ∧ ∀ x ∈ post, x ∈ s'.bookings := by
  refine ⟨fun rest => rfl, ?_⟩
  have hsub : (s.bookings.filter (expiredFilter now af)).Sublist s.bookings :=
    List.filter_sublist _
  have hmem : ∀ x ∈ pre ++ bad :: post, x ∈ s.bookings := by
    intro x hx
    rw [← hfilter] at hx
    exact List.mem_of_mem_filter hx
  have hLnd : ((pre ++ bad :: post).map Booking.id).Nodup := by
    rw [← hfilter]
    exact (List.Sublist.map Booking.id hsub).nodup hndB
  have hrun := sweepList_abort pre bad post s hndB hmem hLnd hpre hbad
  unfold check_no_shows
  rw [hfilter]
  exact hrun

/-- Witness for C9: two expired Confirmed bookings, the first on bike slot
`B-01`, the second on `L1-C1` — the sweep aborts on the first and booking 2
survives unprocessed. -/
theorem claim_C9_sweep_aborts_on_bike_witness :
    ((exC9s.bookings.map Booking.id).Nodup ∧
     exC9s.bookings.filter (expiredFilter 1000 none) = [] ++ exC9b1 :: [exC9b2] ∧
     (∀ x ∈ ([] : List Booking), ∀ sid ∈ x.slotIds, (levelOf sid).isSome) ∧
     (∃ sid ∈ exC9b1.slotIds, levelOf sid = none)) ∧
    ((∀ rest : List Char, levelOf ('B' :: '-' :: rest) = none) ∧
     ∃ s', check_no_shows exC9s 1000 none = .error s' ∧
       ∀ x ∈ [exC9b2], x ∈ s'.bookings) :=
  ⟨⟨by decide, by decide, by decide, by decide⟩,
   claim_C9_sweep_aborts_on_bike exC9s 1000 none [] [exC9b2] exC9b1
     (by decide) (by decide) (by decide) (by decide)⟩

end ParkEase
